import Mathlib

/-!
Shallow embedding of the LCSC2KiCAD converter (Python) in Lean 4.

Strings are modelled as lists of characters (`Str`), Python floats as exact
rationals (`ℚ`), Python ints as `ℤ`/`ℕ`.  Python code that can raise an
exception is modelled with `Option`: a `none` result corresponds to a raised
(and, at the call sites in this code base, caught) exception.  Dictionary
`.get(key, default)` access is modelled either by `Option` fields or by the
default being folded into the field, as noted on each structure.
-/

set_option maxRecDepth 8000

namespace LCSC

/-- Character strings, modelled as lists of characters. -/
abbrev Str := List Char

/-! ## Basic Python string/number primitives -/

/-- The whitespace characters recognised by Python's `str.strip` / `str.split`. -/
def isPySpace (c : Char) : Bool :=
  c = ' ' || c = '\t' || c = '\n' || c = '\r' || c = '\x0b' || c = '\x0c'

/-- Python `str.strip()`: remove leading and trailing whitespace. -/
def pyStrip (s : Str) : Str :=
  ((s.dropWhile isPySpace).reverse.dropWhile isPySpace).reverse

/-- Fuelled worker for `pySplitWs`; structural recursion on the fuel keeps
the function kernel-reducible.  One unit of fuel is spent per character, so
fuel `s.length` never runs out. -/
def pySplitWsF : Nat → Str → List Str
  | _, [] => []
  | 0, _ => []
  | fuel + 1, c :: t =>
    if isPySpace c then pySplitWsF fuel t
    else (c :: t.takeWhile (fun d => !isPySpace d)) ::
      pySplitWsF fuel (t.dropWhile (fun d => !isPySpace d))

/-- Python `str.split()` with no argument: split on runs of whitespace,
dropping empty fields. -/
def pySplitWs (s : Str) : List Str := pySplitWsF s.length s

/-- Python `str.replace(old, new)` for single-character old/new. -/
def replaceChar (old new : Char) (s : Str) : Str :=
  s.map (fun c => if c = old then new else c)

/-- Fuelled worker for `pySplit`: split on the non-empty separator
`s0 :: srest`, left to right, non-overlapping (Python `str.split(sep)`
semantics).  One unit of fuel covers at least one consumed character, so
fuel `s.length` never runs out. -/
def pySplitAux (s0 : Char) (srest : Str) : Nat → Str → Str → List Str
  | _, [], acc => [acc.reverse]
  | 0, s, acc => [acc.reverse ++ s]
  | fuel + 1, c :: t, acc =>
    if (s0 :: srest).isPrefixOf (c :: t) then
      acc.reverse :: pySplitAux s0 srest fuel ((c :: t).drop (srest.length + 1)) []
    else
      pySplitAux s0 srest fuel t (c :: acc)

/-- Python `str.split(sep)` for a non-empty separator string. -/
def pySplit (sep s : Str) : List Str :=
  match sep with
  | [] => [s]
  | s0 :: srest => pySplitAux s0 srest s.length s []

/-- Value of a decimal digit character. -/
def digVal (c : Char) : Option Nat :=
  if c.isDigit then some (c.toNat - 48) else none

/-- Parse a non-empty all-digit string as a natural number. -/
def parseNat (s : Str) : Option Nat :=
  if s.isEmpty then none
  else s.foldl (fun acc c => acc.bind (fun n => (digVal c).map (fun d => n * 10 + d))) (some 0)

/-- Python `int(s)`: surrounding whitespace allowed, optional sign, decimal
digits.  `none` models a raised `ValueError`. -/
def parseIntPy (s : Str) : Option Int :=
  match pyStrip s with
  | '-' :: t => (parseNat t).map (fun n => -(n : Int))
  | '+' :: t => (parseNat t).map (fun n => (n : Int))
  | t => (parseNat t).map (fun n => (n : Int))

/-- Fractional part of a decimal literal: digit string `ds` scaled to `ds/10^|ds|`. -/
def fracVal (ds : Str) : Option ℚ :=
  (parseNat ds).map (fun n => (n : ℚ) / (10 : ℚ) ^ ds.length)

/-- Python `float(s)` restricted to plain decimal literals
(optional sign, integer digits, optional `.` and fraction digits);
`none` models a raised `ValueError`. -/
def parseFloatPy (s : Str) : Option ℚ :=
  let body : Str → Option ℚ := fun t =>
    match pySplit ['.'] t with
    | [ip] => (parseNat ip).map (fun n => (n : ℚ))
    | [ip, fp] =>
      if ip.isEmpty && fp.isEmpty then none
      else if ip.isEmpty then fracVal fp
      else if fp.isEmpty then (parseNat ip).map (fun n => (n : ℚ))
      else (parseNat ip).bind (fun n => (fracVal fp).map (fun f => (n : ℚ) + f))
    | _ => none
  match pyStrip s with
  | '-' :: t => (body t).map (fun q => -q)
  | '+' :: t => body t
  | t => body t

/-- Helper for `strFind`: first index `≥ i` at which `pat` occurs. -/
def strFindAux (pat : Str) : Str → Nat → Option Nat
  | [], i => if pat.isPrefixOf [] then some i else none
  | c :: t, i => if pat.isPrefixOf (c :: t) then some i else strFindAux pat t (i + 1)

/-- Python `str.find(pat)`: index of the first occurrence, `none` for `-1`. -/
def strFind (pat s : Str) : Option Nat := strFindAux pat s 0

/-- Python `pat in s` substring test. -/
def containsStr (s pat : Str) : Bool := (strFind pat s).isSome

/-- Python `str.replace(pat, rep)` for a non-empty pattern string. -/
def pyReplace (pat rep s : Str) : Str := List.intercalate rep (pySplit pat s)

/-- Python `str.rfind(c)` for a single character: index of the last occurrence. -/
def rfindChar (c : Char) (s : Str) : Option Nat :=
  (s.reverse.findIdx? (fun d => d = c)).map (fun j => s.length - 1 - j)

/-- Fuelled worker for `natDigits` (fuel `n` always suffices). -/
def natDigitsF : Nat → Nat → Str
  | 0, n => [Char.ofNat (48 + n % 10)]
  | fuel + 1, n =>
    if n < 10 then [Char.ofNat (48 + n)]
    else natDigitsF fuel (n / 10) ++ [Char.ofNat (48 + n % 10)]

/-- Decimal digits of a natural number, most significant first. -/
def natDigits (n : Nat) : Str := natDigitsF n n

/-- Python `str` of an integer. -/
def intRepr (i : Int) : Str :=
  if i < 0 then '-' :: natDigits i.natAbs else natDigits i.natAbs

/-- Round to the nearest integer, ties to even (the rounding used by Python's
`round` and fixed-point formatting). -/
def roundHalfEven (q : ℚ) : Int :=
  let f := q.floor
  let r := q - (f : ℚ)
  if r < 1/2 then f
  else if 1/2 < r then f + 1
  else if f % 2 = 0 then f else f + 1

/-- Python fixed-point formatting `f"{q:.nd}f"`: sign taken from the value,
`nd` digits after the decimal point, ties rounded to even. -/
def fmtFixed (nd : Nat) (q : ℚ) : Str :=
  let m : Int := roundHalfEven (q * (10 : ℚ) ^ nd)
  let sign : Str := if q < 0 then ['-'] else []
  let a : Nat := m.natAbs
  let ip : Nat := a / 10 ^ nd
  let fp : Nat := a % 10 ^ nd
  let fdigits := natDigits fp
  sign ++ natDigits ip ++ ['.'] ++ List.replicate (nd - fdigits.length) '0' ++ fdigits

/-- Python `round(q, 2)` on a numeric value (ties to even). -/
def pyRound2 (q : ℚ) : ℚ := (roundHalfEven (q * 100) : ℚ) / 100

/-- Python `int(float_value)`: truncation toward zero. -/
def truncQ (q : ℚ) : Int := if 0 ≤ q then ⌊q⌋ else -⌊-q⌋

/-! ## `lcsc2kicad.utils` -/

/-- The invalid file-system characters from `utils.sanitize_name`
(`<>:"/\|?*`). -/
def invalidChars : Str := "<>:\"/\\|?*".toList

/-- `utils.sanitize_name`, replacement loop: each invalid character is
replaced by an underscore (`for char in invalid_chars: name = name.replace(char, "_")`). -/
def replaceInvalid (s : Str) : Str :=
  invalidChars.foldl (fun acc c => replaceChar c '_' acc) s

/-- `utils.sanitize_name`: replace invalid characters by `_`, strip, collapse
whitespace runs (`" ".join(name.split())`), then replace spaces by `_`. -/
def sanitize_name (s : Str) : Str :=
  let s1 := replaceInvalid s
  let s2 := pyStrip s1
  let s3 := List.intercalate [' '] (pySplitWs s2)
  replaceChar ' ' '_' s3

/-- `utils.convert_to_mm`: EasyEDA units to millimeters
(`value * 10 * 0.0254`). -/
def convert_to_mm (v : ℚ) : ℚ := v * 10 * (0.0254 : ℚ)

/-- `utils.mm_to_mil`: millimeters to mils (`value / 0.0254`). -/
def mm_to_mil (v : ℚ) : ℚ := v / (0.0254 : ℚ)

/-! ## `easyeda.parameters_easyeda_symbol`: pin structures and validators -/

/-- `EasyedaPinType` (pin electrical types; `_input` is spelled `input1`). -/
inductive EasyedaPinType
  | unspecified
  | input1
  | output
  | bidirectional
  | power
deriving DecidableEq, Repr

/-- The `parse_display_field` validator: `True` iff the literal token `show`. -/
def parse_display_field (f : Str) : Bool := f = "show".toList

/-- The `empty_str_lock` validator: Python truthiness of the string. -/
def empty_str_lock (f : Str) : Bool := !f.isEmpty

/-- The `empty_str_rotation` validator: `int(rotation) if rotation else 0`;
`none` models `int` raising inside the validator (a validation error). -/
def empty_str_rotation (f : Str) : Option Int :=
  if f.isEmpty then some 0 else parseIntPy f

/-- The `convert_pin_type` validator: `int(field or 0)` with fallback to
`unspecified` on error or out-of-range codes. -/
def convert_pin_type (f : Str) : EasyedaPinType :=
  match (if f.isEmpty then some 0 else parseIntPy f) with
  | none => .unspecified
  | some v =>
    if v = 0 then .unspecified
    else if v = 1 then .input1
    else if v = 2 then .output
    else if v = 3 then .bidirectional
    else if v = 4 then .power
    else .unspecified

/-- The `parse_font_size` validator: strip a `pt` suffix when present,
default `7.0` on the empty string; `none` models `float` raising. -/
def parse_font_size (s : Str) : Option ℚ :=
  if containsStr s "pt".toList then parseFloatPy (pyReplace "pt".toList [] s)
  else if s.isEmpty then some 7 else parseFloatPy s

/-- `EeSymbolPinSettings` (first `^^`-segment of a pin record). -/
structure EeSymbolPinSettings where
  is_displayed : Bool
  type : EasyedaPinType
  spice_pin_number : Str
  pos_x : ℚ
  pos_y : ℚ
  rotation : Int
  id : Str
  is_locked : Bool
deriving DecidableEq, Repr

/-- Pydantic construction of `EeSymbolPinSettings` from the value list
`dict(zip(model_fields, values))`: `zip` truncates extra values; fewer than
eight values leave required fields missing (a validation error, `none`). -/
def mkPinSettings (vals : List Str) : Option EeSymbolPinSettings :=
  match vals with
  | v0 :: v1 :: v2 :: v3 :: v4 :: v5 :: v6 :: v7 :: _ =>
    (parseFloatPy v3).bind fun px =>
    (parseFloatPy v4).bind fun py =>
    (empty_str_rotation v5).map fun rot =>
      { is_displayed := parse_display_field v0
        type := convert_pin_type v1
        spice_pin_number := v2
        pos_x := px
        pos_y := py
        rotation := rot
        id := v6
        is_locked := empty_str_lock v7 }
  | _ => none

/-- `EeSymbolPinDot` (pin start position). -/
structure EeSymbolPinDot where
  dot_x : ℚ
  dot_y : ℚ
deriving DecidableEq, Repr

/-- Construction of `EeSymbolPinDot` from the second `^^`-segment's
`~`-fields, with the code's emptiness guards. -/
def mkPinDot (l : List Str) : Option EeSymbolPinDot :=
  (if (l.headD []).isEmpty then some 0 else parseFloatPy (l.headD [])).bind fun x =>
  (match l.drop 1 with
   | l1 :: _ => if l1.isEmpty then some 0 else parseFloatPy l1
   | [] => some (0 : ℚ)).map fun y => ⟨x, y⟩

/-- `EeSymbolPinPath`; the `tune_path` validator folds `v` segments into `h`. -/
structure EeSymbolPinPath where
  path : Str
  color : Str
deriving DecidableEq, Repr

/-- Construction of `EeSymbolPinPath` from the third `^^`-segment's fields. -/
def mkPinPath (l : List Str) : EeSymbolPinPath :=
  { path := replaceChar 'v' 'h' (l.headD [])
    color := (l.drop 1).headD "#000000".toList }

/-- `EeSymbolPinName` (pin name display settings). -/
structure EeSymbolPinName where
  is_displayed : Bool
  pos_x : ℚ
  pos_y : ℚ
  rotation : Int
  text : Str
  text_anchor : Str
  font : Str
  font_size : ℚ
deriving DecidableEq, Repr

/-- Pydantic construction of `EeSymbolPinName` from the fourth
`^^`-segment's fields (zip semantics as for `mkPinSettings`). -/
def mkPinName (vals : List Str) : Option EeSymbolPinName :=
  match vals with
  | v0 :: v1 :: v2 :: v3 :: v4 :: v5 :: v6 :: v7 :: _ =>
    (parseFloatPy v1).bind fun px =>
    (parseFloatPy v2).bind fun py =>
    (empty_str_rotation v3).bind fun rot =>
    (parse_font_size v7).map fun fs =>
      { is_displayed := parse_display_field v0
        pos_x := px
        pos_y := py
        rotation := rot
        text := v4
        text_anchor := v5
        font := v6
        font_size := fs }
  | _ => none

/-- `EeSymbolPinDotBis` (inversion dot). -/
structure EeSymbolPinDotBis where
  is_displayed : Bool
  circle_x : ℚ
  circle_y : ℚ
deriving DecidableEq, Repr

/-- Construction of `EeSymbolPinDotBis` from the sixth `^^`-segment. -/
def mkPinDotBis (l : List Str) : Option EeSymbolPinDotBis :=
  (match l.drop 1 with
   | l1 :: _ => if l1.isEmpty then some 0 else parseFloatPy l1
   | [] => some (0 : ℚ)).bind fun cx =>
  (match l.drop 2 with
   | l2 :: _ => if l2.isEmpty then some 0 else parseFloatPy l2
   | [] => some (0 : ℚ)).map fun cy =>
    { is_displayed := parse_display_field (l.headD "hide".toList)
      circle_x := cx
      circle_y := cy }

/-- `EeSymbolPinClock` (clock indicator). -/
structure EeSymbolPinClock where
  is_displayed : Bool
  path : Str
deriving DecidableEq, Repr

/-- Construction of `EeSymbolPinClock` from the seventh `^^`-segment. -/
def mkPinClock (l : List Str) : EeSymbolPinClock :=
  { is_displayed := parse_display_field (l.headD "hide".toList)
    path := (l.drop 1).headD [] }

/-- `EeSymbolPin` (complete decoded pin). -/
structure EeSymbolPin where
  settings : EeSymbolPinSettings
  pin_dot : EeSymbolPinDot
  pin_path : EeSymbolPinPath
  name : EeSymbolPinName
  dot : EeSymbolPinDotBis
  clock : EeSymbolPinClock
deriving DecidableEq, Repr

/-- `EeSymbol`, restricted to the pin list (the only collection the claims
about the pin decoder touch; the other shape lists are independent fields of
the Python dataclass). -/
structure EeSymbol where
  pins : List EeSymbolPin
deriving DecidableEq, Repr

/-! ## `easyeda.easyeda_importer_symbol.add_easyeda_pin` -/

/-- The body of `add_easyeda_pin` up to the `ee_symbol.pins.append` call:
split on `^^`, require at least 7 segments, split each segment on `~`, then
build the six sub-structures.  `none` models the early `return` on short
records as well as any exception caught by the surrounding `try`/`except`. -/
def decodePin (pin_data : Str) : Option EeSymbolPin :=
  let segments := pySplit "^^".toList pin_data
  if segments.length < 7 then none
  else
    let ee := segments.map (pySplit "~".toList)
    (mkPinSettings ((ee.headD []).drop 1)).bind fun st =>
    (mkPinDot (ee.getD 1 [])).bind fun pd =>
    let pp := mkPinPath (ee.getD 2 [])
    (mkPinName (ee.getD 3 [])).bind fun pn =>
    (mkPinDotBis (ee.getD 5 [])).bind fun db =>
    some { settings := st, pin_dot := pd, pin_path := pp, name := pn,
           dot := db, clock := mkPinClock (ee.getD 6 []) }

/-- `add_easyeda_pin`: append the decoded pin; on a short record or a caught
exception the symbol is returned unchanged (the function never raises). -/
def add_easyeda_pin (pin_data : Str) (ee_symbol : EeSymbol) : EeSymbol :=
  match decodePin pin_data with
  | some p => { ee_symbol with pins := ee_symbol.pins ++ [p] }
  | none => ee_symbol

/-- The raw rotation field of a pin record: seventh `~`-field of the first
`^^`-segment (the sixth value zipped against the model fields). -/
def rotationField (pin_data : Str) : Option Str :=
  ((pySplit "~".toList ((pySplit "^^".toList pin_data).headD [])).drop 1).get? 5

/-! ## `kicad.export_kicad_symbol`: ellipse-to-circle conversion -/

/-- `EeSymbolBbox` (symbol bounding-box origin). -/
structure EeSymbolBbox where
  x : ℚ
  y : ℚ
deriving DecidableEq, Repr

/-- `EeSymbolEllipse` (decoded ellipse shape). -/
structure EeSymbolEllipse where
  center_x : ℚ
  center_y : ℚ
  radius_x : ℚ
  radius_y : ℚ
  stroke_color : Str
  stroke_width : Str
  stroke_style : Str
  fill_color : Bool
  id : Str
  is_locked : Bool
deriving DecidableEq, Repr

/-- `KiSymbolCircle` (destination circle; only the fields set by
`convert_ee_ellipses`/`convert_ee_circles`). -/
structure KiSymbolCircle where
  pos_x : ℚ
  pos_y : ℚ
  radius : ℚ
  background_filling : Bool
deriving DecidableEq, Repr

/-- `px_to_mm`: EasyEDA pixels to millimeters, rounded to two decimals
(`round(dim * 10 * 0.0254, 2)`). -/
def px_to_mm (dim : ℚ) : ℚ := pyRound2 (dim * 10 * (0.0254 : ℚ))

/-- The circle built from an equal-radius ellipse inside
`convert_ee_ellipses` (`int(float(x))` is truncation toward zero). -/
def ellipseToCircle (bbox : EeSymbolBbox) (e : EeSymbolEllipse) : KiSymbolCircle :=
  { pos_x := px_to_mm ((truncQ e.center_x - truncQ bbox.x : Int) : ℚ)
    pos_y := -px_to_mm ((truncQ e.center_y - truncQ bbox.y : Int) : ℚ)
    radius := px_to_mm e.radius_x
    background_filling := e.fill_color }

/-- `convert_ee_ellipses`: one destination circle per ellipse with equal
radii, nothing for the others.  The loop body cannot raise (all numeric
fields are already floats), so the `try`/`except` is inert. -/
def convert_ee_ellipses (ee_ellipses : List EeSymbolEllipse) (ee_bbox : EeSymbolBbox) :
    List KiSymbolCircle :=
  match ee_ellipses with
  | [] => []
  | e :: t =>
    if e.radius_x = e.radius_y then ellipseToCircle ee_bbox e :: convert_ee_ellipses t ee_bbox
    else convert_ee_ellipses t ee_bbox

/-! ## `kicad.symbol_fallback.create_fallback_symbol`: pin layout -/

/-- A fallback-symbol pin (the `KiSymbolPin` fields set by
`create_fallback_symbol`; `type` is always `passive` and `style` always
`line` there, so they are omitted). -/
structure KiFbPin where
  name : Str
  number : Str
  length : ℚ
  orientation : Int
  pos_x : ℚ
  pos_y : ℚ
deriving DecidableEq, Repr

/-- One side of the `pin_count <= 8` layout: `cnt` pins starting at index
`base` into `pad_numbers`, with `str(pin_idx + 1)` as fallback number. -/
def smallSidePins (pads : List Str) (base cnt : Nat) (orient : Int) (px : ℚ) (height : ℚ) :
    List KiFbPin :=
  (List.range cnt).map fun i =>
    let idx := base + i
    let padNum := (pads.get? idx).getD (natDigits (idx + 1))
    { name := "Pin_".toList ++ padNum
      number := padNum
      length := 2.54
      orientation := orient
      pos_x := px
      pos_y := height / 2 - ((i : ℚ) + 1) * (2.54 : ℚ) - 2.54 }

/-- One side of the `pin_count > 8` layout: up to `cnt` pins starting at
index `base`, stopping (`break`) when `pad_numbers` is exhausted.
`pos` gives the pin position from the side-local loop index. -/
def guardSidePins (pads : List Str) (base : Nat) (orient : Int) (pos : Nat → ℚ × ℚ) :
    Nat → Nat → List KiFbPin
  | _, 0 => []
  | i, k + 1 =>
    match pads.get? (base + i) with
    | none => []
    | some padNum =>
      { name := "Pin_".toList ++ padNum
        number := padNum
        length := 2.54
        orientation := orient
        pos_x := (pos i).1
        pos_y := (pos i).2 } :: guardSidePins pads base orient pos (i + 1) k

/-- The pin layout of `create_fallback_symbol` (source lines 110–293):
side counts, body dimensions and the four per-side loops.  The front matter
of the function guarantees `pad_numbers.length = pin_count` on entry.
`int(pin_count * 0.1)` equals `pin_count / 10` exactly for every pin count
the float expression is applied to, and the `//` divisions never see a
negative operand (the `else` branch has `pin_count > 8`), so natural-number
arithmetic is exact here. -/
def fallback_pin_layout (pin_count : Nat) (pad_numbers : List Str) : List KiFbPin :=
  let pin_spacing : ℚ := 2.54
  let pins_per_vertical_side : Nat :=
    if pin_count ≤ 8 then (pin_count + 1) / 2
    else (pin_count - 2 * max 2 (pin_count / 10)) / 2
  let pins_per_horizontal_side : Nat :=
    if pin_count ≤ 8 then 0 else max 2 (pin_count / 10)
  let height : ℚ := max 10.16 ((pins_per_vertical_side : ℚ) * pin_spacing + 10.16)
  let width : ℚ := max 12.7 ((pins_per_horizontal_side : ℚ) * pin_spacing + 10.16)
  let min_dim : ℚ := max height width * 0.5
  let height : ℚ := if 50 < pin_count then max height min_dim else height
  let width : ℚ := if 50 < pin_count then max width min_dim else width
  if pin_count ≤ 8 then
    let pins_left := (pin_count + 1) / 2
    let pins_right := pin_count - pins_left
    smallSidePins pad_numbers 0 pins_left 180 (-width / 2 - 2.54) height ++
    smallSidePins pad_numbers pins_left pins_right 0 (width / 2 + 2.54) height
  else
    let pins_horizontal := max 2 (pin_count / 10)
    let pins_vertical := (pin_count - 2 * pins_horizontal) / 2
    let vertical_span : ℚ := ((pins_vertical : ℚ) - 1) * pin_spacing
    let start_y : ℚ := min (vertical_span / 2) (height / 2 - 5.08)
    let horizontal_span : ℚ := ((pins_horizontal : ℚ) - 1) * pin_spacing
    let x_start : ℚ := -(min (horizontal_span / 2) (width / 2 - 5.08))
    let leftPins := guardSidePins pad_numbers 0 180
      (fun i => (-width / 2 - 2.54, start_y - (i : ℚ) * pin_spacing)) 0 pins_vertical
    let bottomPins := guardSidePins pad_numbers leftPins.length 270
      (fun i => (x_start + (i : ℚ) * pin_spacing, -height / 2 - 2.54)) 0 pins_horizontal
    let idx1 := leftPins.length + bottomPins.length
    let rightPins := guardSidePins pad_numbers idx1 0
      (fun i => (width / 2 + 2.54, start_y - (i : ℚ) * pin_spacing)) 0 pins_vertical
    let idx2 := idx1 + rightPins.length
    let remaining_pins := pin_count - idx2
    let topPins :=
      if 0 < remaining_pins then
        let hspan : ℚ := ((remaining_pins : ℚ) - 1) * pin_spacing
        let xs : ℚ := -(min (hspan / 2) (width / 2 - 5.08))
        guardSidePins pad_numbers idx2 90
          (fun i => (xs + (i : ℚ) * pin_spacing, height / 2 - 2.54)) 0 remaining_pins
      else []
    leftPins ++ bottomPins ++ rightPins ++ topPins

/-! ## `parsers.footprint_parser` and `exporters.footprint_exporter` -/

/-- Footprint header info (`footprint_info` dict built by
`FootprintParser.parse`; only the fields the exporter reads). -/
structure FpInfo where
  name : Str
  is_smd : Bool
  bbox_x : ℚ
  bbox_y : ℚ
deriving DecidableEq, Repr

/-- A parsed pad (the `pad_data` dict built by `FootprintParser._parse_pad`). -/
structure PadData where
  shape : Str
  center_x : ℚ
  center_y : ℚ
  width : ℚ
  height : ℚ
  layer_id : Int
  net : Str
  number : Str
  hole_radius : ℚ
  points : Str
  rotation : ℚ
deriving DecidableEq, Repr

/-- `FootprintParser._parse_pad`: `none` models both the `len(parts) < 10`
early return and a caught exception from a failed numeric conversion.
With at least 10 parts, fields 1–9 are always present, so the
`if len(parts) > k` guards on them are vacuous. -/
def parse_pad (parts : List Str) : Option PadData :=
  if parts.length < 10 then none
  else
    (parseFloatPy (parts.getD 2 [])).bind fun cx =>
    (parseFloatPy (parts.getD 3 [])).bind fun cy =>
    (parseFloatPy (parts.getD 4 [])).bind fun w =>
    (parseFloatPy (parts.getD 5 [])).bind fun h =>
    (parseIntPy (parts.getD 6 [])).bind fun lid =>
    (parseFloatPy (parts.getD 9 [])).bind fun hr =>
    (if 11 < parts.length then parseFloatPy (parts.getD 11 []) else some (0 : ℚ)).map fun rot =>
      { shape := parts.getD 1 "RECT".toList
        center_x := convert_to_mm cx
        center_y := convert_to_mm cy
        width := convert_to_mm w
        height := convert_to_mm h
        layer_id := lid
        net := parts.getD 7 []
        number := parts.getD 8 "1".toList
        hole_radius := convert_to_mm hr
        points := parts.getD 10 []
        rotation := rot }

/-- `FootprintExporter._map_pad_shape`. -/
def map_pad_shape (shape : Str) : Str :=
  if shape = "RECT".toList then "rect".toList
  else if shape = "ELLIPSE".toList then "circle".toList
  else if shape = "OVAL".toList then "oval".toList
  else if shape = "POLYGON".toList then "custom".toList
  else "rect".toList

/-- `FootprintExporter._map_pad_layers`. -/
def map_pad_layers (layer_id : Int) (pad_type : Str) : Str :=
  if pad_type = "thru_hole".toList then "\"*.Cu\" \"*.Mask\"".toList
  else if layer_id = 1 then "\"F.Cu\" \"F.Paste\" \"F.Mask\"".toList
  else if layer_id = 2 then "\"B.Cu\" \"B.Paste\" \"B.Mask\"".toList
  else "\"F.Cu\" \"F.Paste\" \"F.Mask\"".toList

/-- The destination-relative pad center abscissa computed in
`FootprintExporter._generate_pads`: `x = pad["center_x"] - convert_to_mm(bbox_x)`. -/
def padRelX (pad : PadData) (info : FpInfo) : ℚ :=
  pad.center_x - convert_to_mm info.bbox_x

/-- The destination-relative pad center ordinate computed in
`FootprintExporter._generate_pads`. -/
def padRelY (pad : PadData) (info : FpInfo) : ℚ :=
  pad.center_y - convert_to_mm info.bbox_y

/-- Group a flat coordinate list into `(x, y)` pairs as the
`range(0, len, 2)` loop does; `none` models the `IndexError` raised on an
odd-length list (caught by the surrounding `except`). -/
def pairUp : List ℚ → Option (List (ℚ × ℚ))
  | [] => some []
  | [_] => none
  | a :: b :: t => (pairUp t).map (fun r => (a, b) :: r)

/-- One `(xy …)` polygon point of a custom pad. -/
def polyPointStr (bbox_x bbox_y x y : ℚ) (p : ℚ × ℚ) : Str :=
  "(xy ".toList ++ fmtFixed 3 (convert_to_mm p.1 - bbox_x - x) ++ [' '] ++
    fmtFixed 3 (convert_to_mm p.2 - bbox_y - y) ++ [')']

/-- The `polygon_str` primitive block of a custom pad. -/
def polygonBlock (bbox_x bbox_y x y : ℚ) (pairs : List (ℚ × ℚ)) : Str :=
  "\n    (zone_connect 2)\n    (options (clearance outline) (anchor rect))\n    (primitives\n      (gr_poly\n        (pts\n          ".toList ++
  List.intercalate [' '] (pairs.map (polyPointStr bbox_x bbox_y x y)) ++
  "\n        )\n        (width 0.1)\n      )\n    )".toList

/-- The five text lines emitted for one pad by
`FootprintExporter._generate_pads` (loop body, source lines 121–181).
When the polygon point list fails to parse or has fewer than two points,
`is_custom` is reset but never re-read: the pad keeps the already-assigned
minimal size and the `custom` shape keyword, with an empty primitive block. -/
def generate_pad_lines (pad : PadData) (info : FpInfo) : List Str :=
  let bbox_x := convert_to_mm info.bbox_x
  let bbox_y := convert_to_mm info.bbox_y
  let shape := map_pad_shape pad.shape
  let x := padRelX pad info
  let y := padRelY pad info
  let padTypeDrill : Str × Str :=
    if 0 < pad.hole_radius then
      ("thru_hole".toList, " (drill ".toList ++ fmtFixed 3 (pad.hole_radius * 2) ++ [')'])
    else ("smd".toList, [])
  let pad_type := padTypeDrill.1
  let drill_str := padTypeDrill.2
  let layers := map_pad_layers pad.layer_id pad_type
  let whr : ℚ × ℚ × ℚ × Str :=
    if shape = "custom".toList ∧ ¬pad.points.isEmpty then
      match (pySplitWs pad.points).mapM parseFloatPy with
      | some point_list =>
        if 4 ≤ point_list.length then
          match pairUp point_list with
          | some pairs => (0.005, 0.005, 0, polygonBlock bbox_x bbox_y x y pairs)
          | none => (0.005, 0.005, 0, [])
        else (0.005, 0.005, 0, [])
      | none => (0.005, 0.005, 0, [])
    else (pad.width, pad.height, pad.rotation, [])
  [ "  (pad \"".toList ++ pad.number ++ "\" ".toList ++ pad_type ++ [' '] ++ shape,
    "    (at ".toList ++ fmtFixed 3 x ++ [' '] ++ fmtFixed 3 y ++ [' '] ++
      fmtFixed 1 whr.2.2.1 ++ [')'],
    "    (size ".toList ++ fmtFixed 3 whr.1 ++ [' '] ++ fmtFixed 3 whr.2.1 ++ [')'],
    "    (layers ".toList ++ layers ++ [')'] ++ drill_str ++ whr.2.2.2,
    "  )".toList ]

/-! ## `exporters.symbol_exporter` (the flat-dict symbol exporter) -/

/-- The info dict consumed by `SymbolExporter` (`symbol_data["info"]`).
`pre` models `info.get("prefix", "U")` (the Python key is `prefix`);
the other entries are tested for Python truthiness, so a missing key and an
empty string behave alike and are both modelled by `[]`. -/
structure SEInfo where
  pre : Option Str
  package : Str
  datasheet : Str
  manufacturer : Str
deriving DecidableEq, Repr

/-- A pin dict consumed by `SymbolExporter._generate_pins`; `number` and
`name` keep their context-dependent defaults as `Option`, the numeric
`.get` defaults (0) are folded into the fields. -/
structure SEPin where
  number : Option Str
  name : Option Str
  type : Str
  pos_x : ℚ
  pos_y : ℚ
  rotation : Int
deriving DecidableEq, Repr

/-- A rectangle dict consumed by `SymbolExporter._generate_graphics`. -/
structure SERect where
  x : ℚ
  y : ℚ
  width : ℚ
  height : ℚ
deriving DecidableEq, Repr

/-- A circle dict consumed by `SymbolExporter._generate_graphics`. -/
structure SECircle where
  center_x : ℚ
  center_y : ℚ
  radius : ℚ
deriving DecidableEq, Repr

/-- A polyline dict consumed by `SymbolExporter._generate_graphics`. -/
structure SEPolyline where
  points : List (ℚ × ℚ)
deriving DecidableEq, Repr

/-- The `symbol_data` dict plus constructor arguments of `SymbolExporter`. -/
structure SymbolData where
  component_name : Str
  lcsc_id : Str
  info : SEInfo
  pins : List SEPin
  rectangles : List SERect
  circles : List SECircle
  polylines : List SEPolyline
deriving DecidableEq, Repr

/-- `SymbolExporter._map_pin_type`. -/
def map_pin_type (pin_type : Str) : Str :=
  if pin_type = "0".toList then "unspecified".toList
  else if pin_type = "1".toList then "input".toList
  else if pin_type = "2".toList then "output".toList
  else if pin_type = "3".toList then "bidirectional".toList
  else if pin_type = "4".toList then "power_in".toList
  else "passive".toList

/-- Join a list of lines with newlines (`"\n".join(...)`). -/
def joinNL : List Str → Str
  | [] => []
  | [l] => l
  | l :: ls => l ++ '\n' :: joinNL ls

/-- One property block of `SymbolExporter._generate_properties`
(five appended lines). -/
def propBlock (key value : Str) (idn : Nat) (aty : Str) (hide : Bool) : List Str :=
  [ "    (property \"".toList ++ key ++ "\" \"".toList ++ value ++ ['"'],
    "      (id ".toList ++ natDigits idn ++ [')'],
    "      (at 0 ".toList ++ aty ++ " 0)".toList,
    if hide then "      (effects (font (size 1.27 1.27)) hide)".toList
    else "      (effects (font (size 1.27 1.27)))".toList,
    "    )".toList ]

/-- The property blocks appended by `SymbolExporter._generate_properties`,
in source order with the four truthiness-conditional blocks. -/
def generate_properties_blocks (S : SymbolData) : List (List Str) :=
  [propBlock "Reference".toList (S.info.pre.getD "U".toList) 0 "5.08".toList false,
   propBlock "Value".toList S.component_name 1 "-5.08".toList false] ++
  (if S.info.package.isEmpty then [] else
    [propBlock "Footprint".toList S.info.package 2 "-7.62".toList true]) ++
  (if S.info.datasheet.isEmpty then [] else
    [propBlock "Datasheet".toList S.info.datasheet 3 "-10.16".toList true]) ++
  (if S.lcsc_id.isEmpty then [] else
    [propBlock "LCSC".toList S.lcsc_id 4 "-12.7".toList true]) ++
  (if S.info.manufacturer.isEmpty then [] else
    [propBlock "Manufacturer".toList S.info.manufacturer 5 "-15.24".toList true])

/-- `SymbolExporter._generate_properties` (`"\n".join(props)`). -/
def generate_properties (S : SymbolData) : Str :=
  joinNL (generate_properties_blocks S).flatten

/-- One pin block of `SymbolExporter._generate_pins` (six appended lines);
`i` is the `enumerate` index used for the default pin number. -/
def pinBlock (i : Nat) (pin : SEPin) : List Str :=
  let pin_num := pin.number.getD (natDigits (i + 1))
  let pin_name := pin.name.getD ("Pin_".toList ++ pin_num)
  let pin_type := map_pin_type pin.type
  let x := (pin.pos_x - 100) * (0.0254 : ℚ)
  let y := -((pin.pos_y - 100) * (0.0254 : ℚ))
  let angle : Int :=
    if pin.rotation = 0 then 0
    else if pin.rotation = 90 then 270
    else if pin.rotation = 180 then 180
    else 90
  [ "      (pin ".toList ++ pin_type ++ " line".toList,
    "        (at ".toList ++ fmtFixed 2 x ++ [' '] ++ fmtFixed 2 y ++ [' '] ++
      intRepr angle ++ [')'],
    "        (length 2.54)".toList,
    "        (name \"".toList ++ pin_name ++ "\" (effects (font (size 1.27 1.27))))".toList,
    "        (number \"".toList ++ pin_num ++ "\" (effects (font (size 1.27 1.27))))".toList,
    "      )".toList ]

/-- `SymbolExporter._generate_pins`. -/
def generate_pins (S : SymbolData) : Str :=
  joinNL (S.pins.enum.map (fun ip => pinBlock ip.1 ip.2)).flatten

/-- One rectangle block of `SymbolExporter._generate_graphics`. -/
def rectBlock (r : SERect) : List Str :=
  let x := (r.x - 100) * (0.0254 : ℚ)
  let y := -((r.y - 100) * (0.0254 : ℚ))
  let w := r.width * (0.0254 : ℚ)
  let h := r.height * (0.0254 : ℚ)
  [ "      (rectangle".toList,
    "        (start ".toList ++ fmtFixed 2 x ++ [' '] ++ fmtFixed 2 y ++ [')'],
    "        (end ".toList ++ fmtFixed 2 (x + w) ++ [' '] ++ fmtFixed 2 (y - h) ++ [')'],
    "        (stroke (width 0.254) (type default) (color 0 0 0 0))".toList,
    "        (fill (type background))".toList,
    "      )".toList ]

/-- One circle block of `SymbolExporter._generate_graphics`. -/
def circleBlock (c : SECircle) : List Str :=
  let cx := (c.center_x - 100) * (0.0254 : ℚ)
  let cy := -((c.center_y - 100) * (0.0254 : ℚ))
  let r := c.radius * (0.0254 : ℚ)
  [ "      (circle".toList,
    "        (center ".toList ++ fmtFixed 2 cx ++ [' '] ++ fmtFixed 2 cy ++ [')'],
    "        (radius ".toList ++ fmtFixed 2 r ++ [')'],
    "        (stroke (width 0.254) (type default) (color 0 0 0 0))".toList,
    "        (fill (type none))".toList,
    "      )".toList ]

/-- One polyline block of `SymbolExporter._generate_graphics`;
`none` models the `continue` on fewer than two points. -/
def polylineBlock (pl : SEPolyline) : Option (List Str) :=
  if pl.points.length < 2 then none
  else some (
    [ "      (polyline".toList, "        (pts".toList ] ++
    pl.points.map (fun p =>
      "          (xy ".toList ++ fmtFixed 2 ((p.1 - 100) * (0.0254 : ℚ)) ++ [' '] ++
        fmtFixed 2 (-((p.2 - 100) * (0.0254 : ℚ))) ++ [')']) ++
    [ "        )".toList,
      "        (stroke (width 0.254) (type default) (color 0 0 0 0))".toList,
      "        (fill (type none))".toList,
      "      )".toList ])

/-- The graphic blocks of `SymbolExporter._generate_graphics`,
in source order. -/
def generate_graphics_blocks (S : SymbolData) : List (List Str) :=
  S.rectangles.map rectBlock ++ S.circles.map circleBlock ++
    S.polylines.filterMap polylineBlock

/-- `SymbolExporter._generate_graphics`. -/
def generate_graphics (S : SymbolData) : Str :=
  joinNL (generate_graphics_blocks S).flatten

/-- The derived symbol identifier: component name with spaces replaced by
underscores. -/
def symbolIdOf (S : SymbolData) : Str := replaceChar ' ' '_' S.component_name

/-- `SymbolExporter._generate_kicad_symbol` (the f-string template). -/
def generate_kicad_symbol (S : SymbolData) : Str :=
  let symbol_id := symbolIdOf S
  "  (symbol \"".toList ++ symbol_id ++ "\"\n    (in_bom yes)\n    (on_board yes)\n".toList ++
  generate_properties S ++
  "\n    (symbol \"".toList ++ symbol_id ++ "_0_1\"\n".toList ++
  generate_graphics S ++ ['\n'] ++
  generate_pins S ++
  "\n    )\n  )\n".toList

/-- The start marker scanned for by `SymbolExporter._remove_existing_symbol`. -/
def startMarker (symbolId : Str) : Str :=
  "  (symbol \"".toList ++ symbolId ++ ['"']

/-- The unindented marker used by the existence check in
`SymbolExporter.export` (`f'(symbol "{symbol_id}"' in lib_content`). -/
def checkMarker (symbolId : Str) : Str :=
  "(symbol \"".toList ++ symbolId ++ ['"']

/-- The balanced-parenthesis scan of `_remove_existing_symbol`: offset of
the `)` that brings the nesting level back to zero, `none` when the scan
runs off the end. -/
def scanClose : Str → Int → Option Nat
  | [], _ => none
  | c :: t, level =>
    if c = '(' then (scanClose t (level + 1)).map (fun k => k + 1)
    else if c = ')' then
      if level - 1 = 0 then some 0 else (scanClose t (level - 1)).map (fun k => k + 1)
    else (scanClose t level).map (fun k => k + 1)

/-- `SymbolExporter._remove_existing_symbol`: splice out the region from
the start marker through its matching closing parenthesis. -/
def remove_existing_symbol (content : Str) (symbol_id : Str) : Str :=
  match strFind (startMarker symbol_id) content with
  | none => content
  | some start =>
    match scanClose (content.drop start) 0 with
    | none => content
    | some k => content.take start ++ content.drop (start + k + 1)

/-- The envelope written for a missing library file. -/
def freshEnvelope : Str :=
  "(kicad_symbol_lib\n  (version 20211014)\n  (generator lcsc2kicad)\n)\n".toList

/-- `SymbolExporter.export` as a file-content transformer: `lib` is the
current content of the library file (`none` when the file does not exist);
the result is the content afterwards plus the returned success flag.
The overwrite-disabled skip and the `rfind` failure error return without
writing. -/
def symbol_export (S : SymbolData) (lib : Option Str) (overwrite : Bool) :
    Option Str × Bool :=
  let symbol_content := generate_kicad_symbol S
  let symbol_id := symbolIdOf S
  let insertPart : Str → Option Str × Bool := fun content =>
    match rfindChar ')' content with
    | none => (lib, false)
    | some p => (some (content.take p ++ symbol_content ++ content.drop p), true)
  match lib with
  | some content =>
    if containsStr content (checkMarker symbol_id) then
      if overwrite then insertPart (remove_existing_symbol content symbol_id)
      else (some content, true)
    else insertPart content
  | none => insertPart freshEnvelope

/-! ## Analysis vocabulary: occurrences, parenthesis profiles, clean strings -/

/-- Number of indices of `s` at which `pat` occurs as a substring. -/
def countOccur (pat : Str) : Str → Nat
  | [] => 0
  | c :: t => (if pat.isPrefixOf (c :: t) then 1 else 0) + countOccur pat t

/-- `pat` occurs nowhere strictly before index `n` of `s`. -/
def noOccBefore (pat s : Str) (n : Nat) : Prop :=
  ∀ i < n, ¬ pat <+: s.drop i

/-- Parenthesis weight of a character. -/
def pdelta (c : Char) : Int :=
  if c = '(' then 1 else if c = ')' then -1 else 0

/-- Parenthesis balance of a string. -/
def balInt (s : Str) : Int := (s.map pdelta).sum

/-- Minimum parenthesis balance over all prefixes of a string (always `≤ 0`). -/
def mpre : Str → Int
  | [] => 0
  | c :: t => min 0 (pdelta c + mpre t)

/-- A chunk that a balanced-parenthesis scan passes through neutrally:
no prefix dips below the starting level and the total balance is zero. -/
def chunkOk (s : Str) : Prop := mpre s = 0 ∧ balInt s = 0

/-- Concatenation of a list of string chunks. -/
def catL : List Str → Str
  | [] => []
  | x :: t => x ++ catL t

/-- Characters that cannot disturb the library file's s-expression
structure: anything except parentheses, double quotes and newlines. -/
def cleanChar (c : Char) : Bool :=
  !(c = '(' || c = ')' || c = '"' || c = '\n')

/-- A string of clean characters. -/
def cleanStr (s : Str) : Bool := s.all cleanChar

/-- All string material that `SymbolExporter` interpolates into the
generated record is clean (an `Option` field is checked only when present;
the generated defaults are clean by construction). -/
def cleanSymbolData (S : SymbolData) : Bool :=
  cleanStr S.component_name && cleanStr S.lcsc_id &&
  cleanStr (S.info.pre.getD []) && cleanStr S.info.package &&
  cleanStr S.info.datasheet && cleanStr S.info.manufacturer &&
  S.pins.all (fun p => cleanStr (p.number.getD []) && cleanStr (p.name.getD []))

/-- The interior of the generated record between the opening `"  ("` and the
closing `")\n"`:  `generate_kicad_symbol S = "  (" ++ coreOf S ++ ")\n"`. -/
def coreOf (S : SymbolData) : Str :=
  let symbol_id := symbolIdOf S
  "symbol \"".toList ++ symbol_id ++ "\"\n    (in_bom yes)\n    (on_board yes)\n".toList ++
  generate_properties S ++
  "\n    (symbol \"".toList ++ symbol_id ++ "_0_1\"\n".toList ++
  generate_graphics S ++ ['\n'] ++
  generate_pins S ++
  "\n    )\n  ".toList

/-! ## Concrete sample inputs used by counterexamples and witnesses -/

/-- Number of pins of a given orientation placed by the fallback layout. -/
def orientCount (ps : List KiFbPin) (o : Int) : Nat :=
  (ps.filter (fun p => p.orientation == o)).length

/-- The sequential pad numbers `["1", …, "n"]` generated by
`create_fallback_symbol` when no real pad numbers are available. -/
def seqPadNumbers (n : Nat) : List Str :=
  (List.range n).map (fun i => natDigits (i + 1))

/-- A well-formed EasyEDA pin record (7 `^^`-segments, 9 settings fields). -/
def pinRecordValid : Str :=
  "P~show~4~0~300~240~180~gge23~0^^300~240^^M300,240h20~#880000^^show~310~235~0~VCC~start~~7pt~#880000^^show~297~240~#880000^^0^^0".toList

/-- The same pin record with rotation field `45`. -/
def pinRecordRot45 : Str :=
  "P~show~4~0~300~240~45~gge23~0^^300~240^^M300,240h20~#880000^^show~310~235~0~VCC~start~~7pt~#880000^^show~297~240~#880000^^0^^0".toList

/-- A record with 7 `^^`-segments whose settings segment carries no field
values (pydantic rejects it for the missing required fields). -/
def pinRecordShortSettings : Str := "P^^^^^^^^^^^^".toList

/-- A record with only 2 `^^`-segments. -/
def pinRecordTooFew : Str := "P~show~4^^0".toList

/-- The `~`-fields of a `POLYGON` pad record whose points field (`5`) has
fewer than two vertices. -/
def padPartsPolyBad : List Str :=
  pySplit "~".toList "PAD~POLYGON~0~0~10~10~1~~1~0~5~0".toList

/-- The `~`-fields of a surface-mount `RECT` pad sitting exactly at the
footprint header origin `(50, 60)`. -/
def padPartsAtOrigin : List Str :=
  pySplit "~".toList "PAD~RECT~50~60~10~10~1~~1~0~~0".toList

/-- Footprint header info with bounding-box origin `(0, 0)`. -/
def fpInfoZero : FpInfo := { name := [], is_smd := true, bbox_x := 0, bbox_y := 0 }

/-- Footprint header info with bounding-box origin `(50, 60)`. -/
def fpInfoOrigin : FpInfo := { name := [], is_smd := true, bbox_x := 50, bbox_y := 60 }

/-- A small concrete symbol for the export experiments. -/
def symbolSample : SymbolData :=
  { component_name := "X R".toList
    lcsc_id := "C1".toList
    info := { pre := none, package := [], datasheet := [], manufacturer := [] }
    pins := [{ number := some "1".toList, name := some "VCC".toList, type := "4".toList,
               pos_x := 300, pos_y := 240, rotation := 180 }]
    rectangles := [{ x := 0, y := 0, width := 200, height := 200 }]
    circles := []
    polylines := [] }

/-- The fresh-envelope text up to (excluding) the closing `")\n"`. -/
def headEnvelope : Str :=
  "(kicad_symbol_lib\n  (version 20211014)\n  (generator lcsc2kicad)\n".toList

/-! # Theorems -/

/-! ## Claim C2: unit-transform round trip -/

/-- Claim C2 counterexample: at the representative value `1`, the composed
conversion returns `10`, not `1` — far outside any floating-point
tolerance (shown here with tolerance `1/100`). -/
theorem C2_roundtrip_counterexample :
    convert_to_mm (mm_to_mil 1) = 10 ∧ ¬ |convert_to_mm (mm_to_mil 1) - 1| < 1 / 100 := by
  constructor <;> norm_num [convert_to_mm, mm_to_mil]

/-- Claim C2 amended: the two functions convert between different unit
pairs (EasyEDA units are ten mils), so the composition scales by exactly
`10`; the round trip is the identity only at `0`. -/
theorem C2_roundtrip_amended (v : ℚ) : convert_to_mm (mm_to_mil v) = 10 * v := by
  unfold convert_to_mm mm_to_mil
  ring

/-! ## Claim C8: ellipse-to-circle conversion -/

/-- Claim C8: `convert_ee_ellipses` yields exactly one destination circle
(center offset by the bounding-box origin, radius `radius_x`) for each
ellipse with `radius_x = radius_y`, and none for any other ellipse. -/
theorem C8_ellipse_conversion (l : List EeSymbolEllipse) (b : EeSymbolBbox) :
    convert_ee_ellipses l b =
      (l.filter (fun e => e.radius_x == e.radius_y)).map (ellipseToCircle b) := by
  induction l with
  | nil => rfl
  | cons e t ih =>
    by_cases h : e.radius_x = e.radius_y
    · simp [convert_ee_ellipses, h, ih]
    · simp [convert_ee_ellipses, h, ih]

/-! ## Claim C10: removal is the identity when the record is absent -/

/-- Claim C10: when the start marker `  (symbol "id"` does not occur in the
library content, `_remove_existing_symbol` returns the content unchanged. -/
theorem C10_remove_absent_id (content symbol_id : Str)
    (h : containsStr content (startMarker symbol_id) = false) :
    remove_existing_symbol content symbol_id = content := by
  have hn : strFind (startMarker symbol_id) content = none := by
    cases hf : strFind (startMarker symbol_id) content with
    | none => rfl
    | some k => unfold containsStr at h; rw [hf] at h; simp at h
  simp [remove_existing_symbol, hn]

/-- Witness for C10 at a concrete library content and identifier. -/
theorem C10_remove_absent_id_witness :
    containsStr "(x)".toList (startMarker "A".toList) = false ∧
      remove_existing_symbol "(x)".toList "A".toList = "(x)".toList :=
  ⟨by decide, C10_remove_absent_id _ _ (by decide)⟩

/-! ## Claim C4: malformed polygon pads keep the `custom` keyword -/

/-- Claim C4, behaviour at the failing input: a `POLYGON` pad whose points
field holds a single coordinate is emitted with the shape keyword `custom`
(first line) and with no polygon primitives (fourth line), not as `rect`:
the `is_custom = False` fallback assignment is never read afterwards. -/
theorem C4_polygon_pad_keeps_custom :
    (parse_pad padPartsPolyBad).map
        (fun pad => (generate_pad_lines pad fpInfoZero).headD []) =
      some "  (pad \"1\" smd custom".toList ∧
    (parse_pad padPartsPolyBad).map
        (fun pad => (generate_pad_lines pad fpInfoZero).getD 3 []) =
      some "    (layers \"F.Cu\" \"F.Paste\" \"F.Mask\")".toList := by
  constructor <;> with_unfolding_all decide

/-! ## Claim C7: pin rotation is not restricted to cardinal values -/

/-- Claim C7 counterexample: the pin decoder accepts a record whose
rotation field is `45` and stores rotation `45`, which is not one of the
four cardinal values. -/
theorem C7_rotation_counterexample :
    (decodePin pinRecordRot45).map (fun p => p.settings.rotation) = some 45 ∧
      (45 : Int) ∉ ([0, 90, 180, 270] : List Int) := by
  constructor <;> with_unfolding_all decide

/-- Rotation extraction from a successful `mkPinSettings`. -/
theorem mkPinSettings_rotation (vals : List Str) (st : EeSymbolPinSettings)
    (h : mkPinSettings vals = some st) :
    ∃ f, vals.get? 5 = some f ∧ empty_str_rotation f = some st.rotation := by
  match vals with
  | [] | [_] | [_, _] | [_, _, _] | [_, _, _, _] | [_, _, _, _, _]
  | [_, _, _, _, _, _] | [_, _, _, _, _, _, _] =>
    simp [mkPinSettings] at h
  | v0 :: v1 :: v2 :: v3 :: v4 :: v5 :: v6 :: v7 :: rest =>
    simp only [mkPinSettings, Option.bind_eq_some, Option.map_eq_some'] at h
    obtain ⟨px, hpx, py, hpy, rot, hrot, hst⟩ := h
    exact ⟨v5, rfl, by rw [hrot, ← hst]⟩

/-- Claim C7 amended: every decoded pin's `settings.rotation` is exactly
the integer parsed from the record's rotation field (`0` when the field is
empty); no cardinal-value restriction is enforced. -/
theorem C7_rotation_amended (s : Str) (p : EeSymbolPin) (h : decodePin s = some p) :
    ∃ f, rotationField s = some f ∧ empty_str_rotation f = some p.settings.rotation := by
  unfold decodePin at h
  by_cases h7 : (pySplit "^^".toList s).length < 7
  · rw [if_pos h7] at h; exact absurd h (by simp)
  · rw [if_neg h7] at h
    simp only [Option.bind_eq_some] at h
    obtain ⟨st, hst, pd, hpd, pn, hpn, db, hdb, hp⟩ := h
    obtain ⟨f, hf, hrot⟩ := mkPinSettings_rotation _ _ hst
    have hne : pySplit "^^".toList s ≠ [] := by
      intro hnil
      rw [hnil] at h7
      simp at h7
    obtain ⟨a, t, hat⟩ := List.exists_cons_of_ne_nil hne
    rw [hat] at hf
    simp only [List.map_cons, List.headD_cons] at hf
    refine ⟨f, ?_, ?_⟩
    · unfold rotationField
      rw [hat]
      simpa using hf
    · have hps : st = p.settings := by
        injection hp with hp'
        rw [← hp']
      rw [← hps]
      exact hrot

/-- Witness for the amended C7 at a concrete valid record. -/
theorem C7_rotation_amended_witness :
    ∃ f, rotationField pinRecordValid = some f ∧
      empty_str_rotation f =
        some (((decodePin pinRecordValid).get (by with_unfolding_all decide)).settings.rotation) :=
  C7_rotation_amended pinRecordValid _ (Option.some_get _).symm

/-! ## Claim C6: decoding pin records never raises, short records dropped -/

/-- Claim C6 counterexample: a record with 7 caret-delimited segments whose
settings segment has no field values is dropped (the pin list is left
unchanged), refuting “at least 7 segments implies decoded and appended”. -/
theorem C6_decode_counterexample :
    7 ≤ (pySplit "^^".toList pinRecordShortSettings).length ∧
      add_easyeda_pin pinRecordShortSettings ⟨[]⟩ = ⟨[]⟩ := by
  constructor <;> with_unfolding_all decide

/-- Claim C6 amended: decoding is total (every exception is caught); a
record with fewer than 7 segments is dropped leaving the pin list
unchanged; a record whose segments validate is appended; a record whose
segments fail validation is likewise dropped, so one malformed record
never disturbs the symbol state seen by its siblings. -/
theorem C6_decode_amended (s : Str) (sym : EeSymbol) :
    ((pySplit "^^".toList s).length < 7 → add_easyeda_pin s sym = sym) ∧
    (∀ p, decodePin s = some p → (add_easyeda_pin s sym).pins = sym.pins ++ [p]) ∧
    (decodePin s = none → add_easyeda_pin s sym = sym) := by
  refine ⟨fun h => ?_, fun p hp => ?_, fun hn => ?_⟩
  · have hn : decodePin s = none := by unfold decodePin; rw [if_pos h]
    simp [add_easyeda_pin, hn]
  · simp [add_easyeda_pin, hp]
  · simp [add_easyeda_pin, hn]

/-- Witness for the amended C6: a 2-segment record is dropped and a valid
record is appended. -/
theorem C6_decode_amended_witness :
    add_easyeda_pin pinRecordTooFew ⟨[]⟩ = ⟨[]⟩ ∧
      (add_easyeda_pin pinRecordValid ⟨[]⟩).pins =
        [] ++ [(decodePin pinRecordValid).get (by with_unfolding_all decide)] :=
  ⟨(C6_decode_amended pinRecordTooFew ⟨[]⟩).1 (by with_unfolding_all decide),
   (C6_decode_amended pinRecordValid ⟨[]⟩).2.1 _ (Option.some_get _).symm⟩

/-! ## Claim C9: sanitize_name output contains no invalid characters -/

/-- Characters of `replaceChar a b s` are `b` or non-`a` characters of `s`. -/
theorem mem_replaceChar {a b c : Char} {s : Str} (h : c ∈ replaceChar a b s) :
    c = b ∨ (c ∈ s ∧ c ≠ a) := by
  unfold replaceChar at h
  obtain ⟨d, hd, he⟩ := List.mem_map.mp h
  by_cases hda : d = a
  · subst hda
    rw [if_pos rfl] at he
    exact Or.inl he.symm
  · rw [if_neg hda] at he
    subst he
    exact Or.inr ⟨hd, hda⟩

/-- Characters surviving the invalid-character replacement loop are
underscores or characters of the input that are not in the replaced set. -/
theorem fold_replace_mem (l : List Char) (s : Str) (c : Char)
    (h : c ∈ l.foldl (fun acc a => replaceChar a '_' acc) s) :
    c = '_' ∨ (c ∈ s ∧ c ∉ l) := by
  induction l generalizing s with
  | nil => exact Or.inr ⟨h, by simp⟩
  | cons a t ih =>
    rcases ih (replaceChar a '_' s) h with h1 | ⟨h1, h2⟩
    · exact Or.inl h1
    · rcases mem_replaceChar h1 with h3 | ⟨h3, h4⟩
      · exact Or.inl h3
      · exact Or.inr ⟨h3, by simp [h4, h2]⟩

/-- `pyStrip` only removes characters. -/
theorem mem_pyStrip {c : Char} {s : Str} (h : c ∈ pyStrip s) : c ∈ s := by
  unfold pyStrip at h
  rw [List.mem_reverse] at h
  have h1 := (List.dropWhile_sublist _).subset h
  rw [List.mem_reverse] at h1
  exact (List.dropWhile_sublist _).subset h1

/-- Characters of the whitespace-split fields come from the input. -/
theorem mem_pySplitWsF : ∀ (f : Nat) (s w : Str), w ∈ pySplitWsF f s → ∀ c ∈ w, c ∈ s := by
  intro f
  induction f with
  | zero =>
    intro s w hw
    cases s <;> simp [pySplitWsF] at hw
  | succ f ih =>
    intro s w hw c hc
    cases s with
    | nil => simp [pySplitWsF] at hw
    | cons a t =>
      unfold pySplitWsF at hw
      by_cases ha : isPySpace a
      · rw [if_pos ha] at hw
        exact List.mem_cons_of_mem a (ih t w hw c hc)
      · rw [if_neg ha] at hw
        rcases List.mem_cons.mp hw with rfl | hw'
        · rcases List.mem_cons.mp hc with rfl | hc'
          · exact List.mem_cons_self _ _
          · exact List.mem_cons_of_mem _ ((List.takeWhile_sublist _).subset hc')
        · exact List.mem_cons_of_mem _
            ((List.dropWhile_sublist _).subset (ih _ w hw' c hc))

/-- Characters of `" ".join(words)` are spaces or characters of a word. -/
theorem mem_intercalate_space {c : Char} :
    ∀ {ws : List Str}, c ∈ List.intercalate [' '] ws → c = ' ' ∨ ∃ w ∈ ws, c ∈ w := by
  intro ws
  induction ws with
  | nil => intro h; simp [List.intercalate] at h
  | cons w rest ih =>
    intro h
    cases rest with
    | nil =>
      refine Or.inr ⟨w, by simp, ?_⟩
      simpa [List.intercalate] using h
    | cons w2 r2 =>
      rw [List.intercalate, List.intersperse_cons_cons, List.flatten_cons,
        List.flatten_cons] at h
      rcases List.mem_append.mp h with h1 | h2
      · exact Or.inr ⟨w, by simp, h1⟩
      · rcases List.mem_append.mp h2 with h3 | h4
        · exact Or.inl (by simpa using h3)
        · rcases ih (by rw [List.intercalate]; exact h4) with h5 | ⟨w', hw', hcw'⟩
          · exact Or.inl h5
          · exact Or.inr ⟨w', by simp [hw'], hcw'⟩

/-- Claim C9: every character of `sanitize_name s` is outside the invalid
set `<>:"/\|?*` and is not a space. -/
theorem C9_sanitize_name (s : Str) :
    (sanitize_name s).all (fun c => decide (c ∉ invalidChars) && decide (c ≠ ' ')) = true := by
  rw [List.all_eq_true]
  intro c hc
  rw [Bool.and_eq_true, decide_eq_true_eq, decide_eq_true_eq]
  have hc' : c ∈ replaceChar ' ' '_'
      (List.intercalate [' '] (pySplitWs (pyStrip (replaceInvalid s)))) := by
    simpa [sanitize_name] using hc
  rcases mem_replaceChar hc' with rfl | ⟨h3, hne⟩
  · exact ⟨by decide, by decide⟩
  · rcases mem_intercalate_space h3 with rfl | ⟨w, hw, hcw⟩
    · exact absurd rfl hne
    · have h1 : c ∈ replaceInvalid s :=
        mem_pyStrip (mem_pySplitWsF _ _ w hw c hcw)
      rcases fold_replace_mem invalidChars s c h1 with rfl | ⟨_, hninv⟩
      · exact ⟨by decide, by decide⟩
      · exact ⟨hninv, hne⟩

/-! ## Claim C5: footprint re-centering -/

/-- Claim C5: a parsed pad whose raw source coordinates equal the header
bounding-box origin is emitted with destination-relative center `(0, 0)`
(third conjunct: the origin is subtracted from every pad center). -/
theorem C5_pad_recentering (parts : List Str) (pad : PadData) (info : FpInfo)
    (hp : parse_pad parts = some pad)
    (hx : parseFloatPy (parts.getD 2 []) = some info.bbox_x)
    (hy : parseFloatPy (parts.getD 3 []) = some info.bbox_y) :
    padRelX pad info = 0 ∧ padRelY pad info = 0 ∧
      (∀ q r, padRelX q r = q.center_x - convert_to_mm r.bbox_x ∧
              padRelY q r = q.center_y - convert_to_mm r.bbox_y) ∧
      ∃ rot, (generate_pad_lines pad info).getD 1 [] =
        "    (at ".toList ++ "0.000".toList ++ [' '] ++ "0.000".toList ++ [' '] ++
          fmtFixed 1 rot ++ [')'] := by
  unfold parse_pad at hp
  by_cases h10 : parts.length < 10
  · rw [if_pos h10] at hp
    exact absurd hp (by simp)
  · rw [if_neg h10, hx, hy] at hp
    simp only [Option.some_bind, Option.bind_eq_some, Option.map_eq_some'] at hp
    obtain ⟨w, hw, h, hh, lid, hlid, hr, hhr, rot0, hrot0, hpad⟩ := hp
    have hcx : pad.center_x = convert_to_mm info.bbox_x := by rw [← hpad]
    have hcy : pad.center_y = convert_to_mm info.bbox_y := by rw [← hpad]
    have h0x : padRelX pad info = 0 := by rw [padRelX, hcx, sub_self]
    have h0y : padRelY pad info = 0 := by rw [padRelY, hcy, sub_self]
    have hf3 : fmtFixed 3 (0 : ℚ) = "0.000".toList := by with_unfolding_all decide
    refine ⟨h0x, h0y, fun q r => ⟨rfl, rfl⟩, ?_⟩
    unfold generate_pad_lines
    simp only [List.getD, List.get?]
    rw [h0x, h0y, hf3]
    exact ⟨_, rfl⟩

/-- Witness for C5 at the concrete pad record
`PAD~RECT~50~60~10~10~1~~1~0~~0` with header origin `(50, 60)`. -/
theorem C5_pad_recentering_witness :
    padRelX ((parse_pad padPartsAtOrigin).get (by with_unfolding_all decide)) fpInfoOrigin = 0 :=
  (C5_pad_recentering padPartsAtOrigin _ fpInfoOrigin (Option.some_get _).symm
    (by with_unfolding_all decide) (by with_unfolding_all decide)).1

/-! ## Claim C3: fallback-symbol pin distribution -/

/-- Orientation counts add over list concatenation. -/
theorem orientCount_append (a b : List KiFbPin) (o : Int) :
    orientCount (a ++ b) o = orientCount a o + orientCount b o := by
  unfold orientCount
  rw [List.filter_append, List.length_append]

/-- Orientation count of a single-orientation list. -/
theorem orientCount_of_all (l : List KiFbPin) (o : Int)
    (h : ∀ p ∈ l, p.orientation = o) (o' : Int) :
    orientCount l o' = if o = o' then l.length else 0 := by
  unfold orientCount
  by_cases ho : o = o'
  · subst ho
    rw [if_pos rfl, List.filter_eq_self.mpr]
    intro a ha
    rw [h a ha]
    exact beq_self_eq_true o
  · rw [if_neg ho, List.filter_eq_nil_iff.mpr, List.length_nil]
    intro a ha
    rw [h a ha]
    simp [ho]

/-- All pins placed by `smallSidePins` carry the given orientation. -/
theorem smallSide_orient (pads : List Str) (base cnt : Nat) (o : Int) (px hgt : ℚ) :
    ∀ p ∈ smallSidePins pads base cnt o px hgt, p.orientation = o := by
  intro p hp
  obtain ⟨i, _, heq⟩ := List.mem_map.mp hp
  rw [← heq]

/-- `smallSidePins` places exactly `cnt` pins. -/
theorem smallSide_length (pads : List Str) (base cnt : Nat) (o : Int) (px hgt : ℚ) :
    (smallSidePins pads base cnt o px hgt).length = cnt := by
  simp [smallSidePins]

/-- All pins placed by `guardSidePins` carry the given orientation. -/
theorem guardSide_orient (pads : List Str) (base : Nat) (o : Int) (pos : Nat → ℚ × ℚ) :
    ∀ (k i : Nat), ∀ p ∈ guardSidePins pads base o pos i k, p.orientation = o := by
  intro k
  induction k with
  | zero => intro i p hp; simp [guardSidePins] at hp
  | succ k ih =>
    intro i p hp
    unfold guardSidePins at hp
    cases hg : pads.get? (base + i) with
    | none => rw [hg] at hp; simp at hp
    | some v =>
      rw [hg] at hp
      rcases List.mem_cons.mp hp with rfl | hp'
      · rfl
      · exact ih (i + 1) p hp'

/-- `guardSidePins` places `min k (pads.length - (base + i))` pins. -/
theorem guardSide_length (pads : List Str) (base : Nat) (o : Int) (pos : Nat → ℚ × ℚ) :
    ∀ (k i : Nat), (guardSidePins pads base o pos i k).length =
      min k (pads.length - (base + i)) := by
  intro k
  induction k with
  | zero => intro i; simp [guardSidePins]
  | succ k ih =>
    intro i
    unfold guardSidePins
    cases hg : pads.get? (base + i) with
    | none =>
      have hle := List.get?_eq_none.mp hg
      simp only [List.length_nil]
      omega
    | some v =>
      have hlt : base + i < pads.length := by
        by_contra hc
        rw [List.get?_eq_none.mpr (by omega)] at hg
        exact absurd hg (by simp)
      simp only [List.length_cons, ih (i + 1)]
      omega

/-- Claim C3 counterexample: at pin count 9 the top and bottom sides
together receive 5 pins, while the claim's formula gives
`2 * max(2, floor(9 * 0.1)) = 4` (the odd remainder goes to the top side). -/
theorem C3_fallback_counterexample :
    orientCount (fallback_pin_layout 9 (seqPadNumbers 9)) 90 +
        orientCount (fallback_pin_layout 9 (seqPadNumbers 9)) 270 = 5 ∧
      2 * max 2 (9 / 10) = 4 := by
  constructor <;> with_unfolding_all decide

/-- Orientation count of an empty list. -/
theorem orientCount_nil (o : Int) : orientCount [] o = 0 := rfl

/-- Orientation count of `guardSidePins` in closed form. -/
theorem orientCount_guardSide (pads : List Str) (base : Nat) (o : Int)
    (pos : Nat → ℚ × ℚ) (i k : Nat) (o' : Int) :
    orientCount (guardSidePins pads base o pos i k) o' =
      if o = o' then min k (pads.length - (base + i)) else 0 := by
  rw [orientCount_of_all _ o (guardSide_orient pads base o pos k i) o',
    guardSide_length]

/-- Orientation count of `smallSidePins` in closed form. -/
theorem orientCount_smallSide (pads : List Str) (base cnt : Nat) (o : Int)
    (px hgt : ℚ) (o' : Int) :
    orientCount (smallSidePins pads base cnt o px hgt) o' =
      if o = o' then cnt else 0 := by
  rw [orientCount_of_all _ o (smallSide_orient pads base cnt o px hgt) o',
    smallSide_length]

/-- `orientCount` distributes over an `if` on the pin list. -/
theorem orientCount_ite (c : Prop) [Decidable c] (a b : List KiFbPin) (o' : Int) :
    orientCount (if c then a else b) o' =
      if c then orientCount a o' else orientCount b o' := by
  split <;> rfl

/-- Orientation counts of the four-sided (`pin_count > 8`) layout. -/
theorem fallback_large_counts (n : Nat) (pads : List Str) (h9 : 9 ≤ n)
    (hlen : pads.length = n) :
    orientCount (fallback_pin_layout n pads) 180 = (n - 2 * max 2 (n / 10)) / 2 ∧
    orientCount (fallback_pin_layout n pads) 0 = (n - 2 * max 2 (n / 10)) / 2 ∧
    orientCount (fallback_pin_layout n pads) 270 = max 2 (n / 10) ∧
    orientCount (fallback_pin_layout n pads) 90 =
      max 2 (n / 10) + (n - 2 * max 2 (n / 10)) % 2 := by
  have hn : ¬ n ≤ 8 := by omega
  unfold fallback_pin_layout
  simp only [if_neg hn]
  simp only [orientCount_append, orientCount_ite, orientCount_guardSide,
    orientCount_nil, guardSide_length, hlen]
  have c1 : ((270 : Int) = 180) = False := by norm_num
  have c2 : ((0 : Int) = 180) = False := by norm_num
  have c3 : ((90 : Int) = 180) = False := by norm_num
  have c4 : ((180 : Int) = 0) = False := by norm_num
  have c5 : ((270 : Int) = 0) = False := by norm_num
  have c6 : ((90 : Int) = 0) = False := by norm_num
  have c7 : ((180 : Int) = 270) = False := by norm_num
  have c8 : ((0 : Int) = 270) = False := by norm_num
  have c9 : ((90 : Int) = 270) = False := by norm_num
  have c10 : ((180 : Int) = 90) = False := by norm_num
  have c11 : ((270 : Int) = 90) = False := by norm_num
  have c12 : ((0 : Int) = 90) = False := by norm_num
  simp only [c1, c2, c3, c4, c5, c6, c7, c8, c9, c10, c11, c12,
    if_false, if_true, ite_self]
  refine ⟨?_, ?_, ?_, ?_⟩ <;> first
    | omega
    | (split <;> omega)

/-- Claim C3 amended: for pin counts 1–8 the left side gets `⌈n/2⌉` pins
and the right side the remainder; for 9–50 the left and right sides each
get `(n - 2·max(2, ⌊n/10⌋))/2` pins, the bottom gets `max(2, ⌊n/10⌋)` and
the top absorbs the remainder `max(2, ⌊n/10⌋) + (n - 2·max(2, ⌊n/10⌋)) mod 2`
(one more than the claim's formula when the vertical remainder is odd);
all four sides sum to `n`. -/
theorem C3_fallback_amended (n : Nat) (pads : List Str) :
    (1 ≤ n → n ≤ 8 →
      orientCount (fallback_pin_layout n pads) 180 = (n + 1) / 2 ∧
      orientCount (fallback_pin_layout n pads) 0 = n - (n + 1) / 2 ∧
      orientCount (fallback_pin_layout n pads) 90 = 0 ∧
      orientCount (fallback_pin_layout n pads) 270 = 0) ∧
    (9 ≤ n → n ≤ 50 → pads.length = n →
      orientCount (fallback_pin_layout n pads) 180 = (n - 2 * max 2 (n / 10)) / 2 ∧
      orientCount (fallback_pin_layout n pads) 0 = (n - 2 * max 2 (n / 10)) / 2 ∧
      orientCount (fallback_pin_layout n pads) 270 = max 2 (n / 10) ∧
      orientCount (fallback_pin_layout n pads) 90 =
        max 2 (n / 10) + (n - 2 * max 2 (n / 10)) % 2 ∧
      orientCount (fallback_pin_layout n pads) 180 +
        orientCount (fallback_pin_layout n pads) 0 +
        orientCount (fallback_pin_layout n pads) 270 +
        orientCount (fallback_pin_layout n pads) 90 = n) := by
  constructor
  · intro _ h8
    have key : ∀ o' : Int, orientCount (fallback_pin_layout n pads) o' =
        (if (180 : Int) = o' then (n + 1) / 2 else 0) +
        (if (0 : Int) = o' then n - (n + 1) / 2 else 0) := by
      intro o'
      unfold fallback_pin_layout
      simp only [if_pos h8]
      rw [orientCount_append, orientCount_smallSide, orientCount_smallSide]
    refine ⟨?_, ?_, ?_, ?_⟩ <;> simp [key]
  · intro h9 _ hlen
    obtain ⟨k180, k0, k270, k90⟩ := fallback_large_counts n pads h9 hlen
    exact ⟨k180, k0, k270, k90, by omega⟩

/-- Witness for the amended C3 at pin counts 6 (two-sided layout) and
12 (four-sided layout). -/
theorem C3_fallback_amended_witness :
    (orientCount (fallback_pin_layout 6 (seqPadNumbers 6)) 180 = (6 + 1) / 2 ∧
      orientCount (fallback_pin_layout 6 (seqPadNumbers 6)) 0 = 6 - (6 + 1) / 2 ∧
      orientCount (fallback_pin_layout 6 (seqPadNumbers 6)) 90 = 0 ∧
      orientCount (fallback_pin_layout 6 (seqPadNumbers 6)) 270 = 0) ∧
    (orientCount (fallback_pin_layout 12 (seqPadNumbers 12)) 180 =
        (12 - 2 * max 2 (12 / 10)) / 2 ∧
      orientCount (fallback_pin_layout 12 (seqPadNumbers 12)) 0 =
        (12 - 2 * max 2 (12 / 10)) / 2 ∧
      orientCount (fallback_pin_layout 12 (seqPadNumbers 12)) 270 = max 2 (12 / 10) ∧
      orientCount (fallback_pin_layout 12 (seqPadNumbers 12)) 90 =
        max 2 (12 / 10) + (12 - 2 * max 2 (12 / 10)) % 2 ∧
      orientCount (fallback_pin_layout 12 (seqPadNumbers 12)) 180 +
        orientCount (fallback_pin_layout 12 (seqPadNumbers 12)) 0 +
        orientCount (fallback_pin_layout 12 (seqPadNumbers 12)) 270 +
        orientCount (fallback_pin_layout 12 (seqPadNumbers 12)) 90 = 12) :=
  ⟨(C3_fallback_amended 6 (seqPadNumbers 6)).1 (by omega) (by omega),
   (C3_fallback_amended 12 (seqPadNumbers 12)).2 (by omega) (by omega)
     (by with_unfolding_all decide)⟩

/-! ## Claim C1: string-scanning lemmas for the symbol exporter -/

/-- `strFindAux` finds the first occurrence, offset by its start index. -/
theorem strFindAux_of_found (pat : Str) :
    ∀ (s : Str) (k n : Nat), pat <+: s.drop n → (∀ i < n, ¬ pat <+: s.drop i) →
      strFindAux pat s k = some (k + n) := by
  intro s
  induction s with
  | nil =>
    intro k n h1 h2
    rw [List.drop_nil] at h1
    have hp : pat.isPrefixOf ([] : Str) = true :=
      List.isPrefixOf_iff_prefix.mpr h1
    cases n with
    | zero => simp [strFindAux, hp]
    | succ n =>
      exact absurd (show pat <+: ([] : Str).drop 0 by simpa using h1)
        (h2 0 (by omega))
  | cons c t ih =>
    intro k n h1 h2
    cases n with
    | zero =>
      rw [List.drop_zero] at h1
      unfold strFindAux
      rw [if_pos (List.isPrefixOf_iff_prefix.mpr h1)]
      rfl
    | succ n =>
      have h0 : ¬ pat.isPrefixOf (c :: t) = true := by
        intro hc
        exact h2 0 (by omega) (by simpa using List.isPrefixOf_iff_prefix.mp hc)
      unfold strFindAux
      rw [if_neg h0]
      have := ih (k + 1) n (by simpa using h1)
        (fun i hi => by simpa using h2 (i + 1) (by omega))
      rw [this]
      congr 1
      omega

/-- `strFind` returns the first occurrence index. -/
theorem strFind_eq_some (pat s : Str) (n : Nat) (h1 : pat <+: s.drop n)
    (h2 : ∀ i < n, ¬ pat <+: s.drop i) : strFind pat s = some n := by
  simpa using strFindAux_of_found pat s 0 n h1 h2

/-- A `none` result of `strFindAux` means no occurrence at all. -/
theorem strFindAux_none_no_occ (pat : Str) :
    ∀ (s : Str) (k : Nat), strFindAux pat s k = none → ∀ n, ¬ pat <+: s.drop n := by
  intro s
  induction s with
  | nil =>
    intro k h n hc
    rw [List.drop_nil] at hc
    rw [strFindAux, if_pos (List.isPrefixOf_iff_prefix.mpr hc)] at h
    exact absurd h (by simp)
  | cons c t ih =>
    intro k h n hc
    unfold strFindAux at h
    by_cases hp : pat.isPrefixOf (c :: t)
    · rw [if_pos hp] at h
      exact absurd h (by simp)
    · rw [if_neg hp] at h
      cases n with
      | zero =>
        rw [List.drop_zero] at hc
        exact hp (List.isPrefixOf_iff_prefix.mpr hc)
      | succ n => exact ih (k + 1) h n (by simpa using hc)

/-- An occurrence anywhere makes the Python `in` test true. -/
theorem contains_of_occ (s pat : Str) (n : Nat) (h : pat <+: s.drop n) :
    containsStr s pat = true := by
  unfold containsStr
  cases hf : strFind pat s with
  | some k => rfl
  | none => exact absurd h (strFindAux_none_no_occ pat s 0 hf n)

/-- A false Python `in` test means no occurrence anywhere. -/
theorem no_occ_of_contains_false (s pat : Str) (h : containsStr s pat = false) :
    ∀ n, ¬ pat <+: s.drop n := by
  unfold containsStr at h
  cases hf : strFind pat s with
  | some k => rw [hf] at h; exact absurd h (by simp)
  | none => exact strFindAux_none_no_occ pat s 0 hf

/-- `rfind` of a character that closes the string (nothing equal after it). -/
theorem rfindChar_append_last (A B : Str) (c : Char) (hB : c ∉ B) :
    rfindChar c (A ++ c :: B) = some A.length := by
  unfold rfindChar
  rw [List.reverse_append, List.reverse_cons]
  have h1 : B.reverse.findIdx? (fun d => d = c) = none := by
    rw [List.findIdx?_eq_none_iff]
    intro x hx
    rw [List.mem_reverse] at hx
    simp only [decide_eq_false_iff_not]
    intro hxc
    exact hB (hxc ▸ hx)
  have h2 : (c :: A.reverse).findIdx? (fun d => d = c) = some 0 := by
    simp [List.findIdx?]
  rw [List.append_assoc, List.findIdx?_append, h1]
  rw [show [c] ++ List.reverse A = c :: List.reverse A from rfl, h2]
  simp only [Option.none_or, Option.map_some', List.length_append,
    List.length_cons, List.length_reverse]
  congr 1
  omega

/-- Balance adds over concatenation. -/
theorem balInt_append (a b : Str) : balInt (a ++ b) = balInt a + balInt b := by
  simp [balInt]

/-- Balance of a cons. -/
theorem balInt_cons (c : Char) (s : Str) : balInt (c :: s) = pdelta c + balInt s := by
  simp [balInt]

/-- The minimum prefix balance is never positive. -/
theorem mpre_nonpos : ∀ s : Str, mpre s ≤ 0 := by
  intro s
  cases s with
  | nil => exact le_refl 0
  | cons c t => exact min_le_left _ _

/-- Minimum prefix balance of a concatenation. -/
theorem mpre_append (a b : Str) : mpre (a ++ b) = min (mpre a) (balInt a + mpre b) := by
  induction a with
  | nil =>
    simp only [List.nil_append, mpre, balInt, List.map_nil, List.sum_nil, zero_add]
    exact (min_eq_right (mpre_nonpos b)).symm
  | cons c t ih =>
    rw [show (c :: t) ++ b = c :: (t ++ b) from rfl,
      show mpre (c :: (t ++ b)) = min 0 (pdelta c + mpre (t ++ b)) from rfl,
      show mpre (c :: t) = min 0 (pdelta c + mpre t) from rfl,
      balInt_cons, ih]
    omega

/-- Neutral chunks concatenate to a neutral chunk. -/
theorem chunkOk_append {a b : Str} (ha : chunkOk a) (hb : chunkOk b) :
    chunkOk (a ++ b) := by
  obtain ⟨ha1, ha2⟩ := ha
  obtain ⟨hb1, hb2⟩ := hb
  constructor
  · rw [mpre_append, ha1, ha2, hb1]
    simp
  · rw [balInt_append, ha2, hb2]
    simp

/-- The empty string is a neutral chunk. -/
theorem chunkOk_nil : chunkOk ([] : Str) := ⟨rfl, rfl⟩

/-- Clean characters have no parenthesis weight. -/
theorem pdelta_clean {c : Char} (h : cleanChar c = true) : pdelta c = 0 := by
  unfold cleanChar at h
  simp only [Bool.not_eq_true', Bool.or_eq_false_iff, decide_eq_false_iff_not] at h
  unfold pdelta
  rw [if_neg h.1.1.1, if_neg h.1.1.2]

/-- Clean strings are neutral chunks. -/
theorem chunkOk_clean {s : Str} (h : cleanStr s = true) : chunkOk s := by
  induction s with
  | nil => exact chunkOk_nil
  | cons c t ih =>
    rw [cleanStr, List.all_cons, Bool.and_eq_true] at h
    obtain ⟨hok1, hok2⟩ := ih h.2
    constructor
    · rw [mpre, pdelta_clean h.1, hok1]
      simp
    · rw [balInt_cons, pdelta_clean h.1, hok2]
      simp

/-- Chunk-list evaluation equations. -/
theorem mpre_catL_cons (x : Str) (t : List Str) :
    mpre (catL (x :: t)) = min (mpre x) (balInt x + mpre (catL t)) := by
  rw [catL, mpre_append]

/-- Balance of a chunk-list cons. -/
theorem balInt_catL_cons (x : Str) (t : List Str) :
    balInt (catL (x :: t)) = balInt x + balInt (catL t) := by
  rw [catL, balInt_append]

/-- Unfolding equations for the balanced-parenthesis scan. -/
theorem scanClose_cons_open (t : Str) (lvl : Int) :
    scanClose ('(' :: t) lvl = (scanClose t (lvl + 1)).map (fun k => k + 1) := by
  simp [scanClose]

/-- Scan step at a closing parenthesis. -/
theorem scanClose_cons_close (t : Str) (lvl : Int) :
    scanClose (')' :: t) lvl =
      if lvl - 1 = 0 then some 0 else (scanClose t (lvl - 1)).map (fun k => k + 1) := by
  simp [scanClose]

/-- Scan step at a neutral character. -/
theorem scanClose_cons_other (c : Char) (t : Str) (lvl : Int)
    (h1 : c ≠ '(') (h2 : c ≠ ')') :
    scanClose (c :: t) lvl = (scanClose t lvl).map (fun k => k + 1) := by
  simp [scanClose, h1, h2]

/-- The scan passes neutrally through a prefix that keeps the level
at least one. -/
theorem scanClose_through (core : Str) :
    ∀ (lvl : Int) (tail : Str), 1 ≤ lvl + mpre core →
      scanClose (core ++ tail) lvl =
        (scanClose tail (lvl + balInt core)).map (fun k => k + core.length) := by
  induction core with
  | nil =>
    intro lvl tail _
    simp only [List.nil_append, balInt, List.map_nil, List.sum_nil, add_zero,
      List.length_nil]
    cases scanClose tail lvl <;> simp
  | cons c t ih =>
    intro lvl tail h
    have hm : 1 ≤ lvl + min 0 (pdelta c + mpre t) := by simpa [mpre] using h
    have hmt := mpre_nonpos t
    rw [List.cons_append]
    by_cases hc : c = '('
    · subst hc
      have hd : pdelta '(' = 1 := rfl
      rw [hd] at hm
      rw [scanClose_cons_open, ih (lvl + 1) tail (by omega),
        balInt_cons, hd, Option.map_map]
      have he : lvl + (1 + balInt t) = lvl + 1 + balInt t := by ring
      rw [he]
      cases scanClose tail (lvl + 1 + balInt t) with
      | none => simp
      | some v => simp [Function.comp]; try omega
    · by_cases hc' : c = ')'
      · subst hc'
        have hd : pdelta ')' = -1 := rfl
        rw [hd] at hm
        rw [scanClose_cons_close, if_neg (by omega), ih (lvl - 1) tail (by omega),
          balInt_cons, hd, Option.map_map]
        have he : lvl + (-1 + balInt t) = lvl - 1 + balInt t := by ring
        rw [he]
        cases scanClose tail (lvl - 1 + balInt t) with
        | none => simp
        | some v => simp [Function.comp]; try omega
      · have hd : pdelta c = 0 := by unfold pdelta; rw [if_neg hc, if_neg hc']
        rw [hd] at hm
        rw [scanClose_cons_other c _ _ hc hc', ih lvl tail (by omega),
          balInt_cons, hd, Option.map_map]
        have he : lvl + (0 + balInt t) = lvl + balInt t := by ring
        rw [he]
        cases scanClose tail (lvl + balInt t) with
        | none => simp
        | some v => simp [Function.comp]; try omega

/-- The balanced-parenthesis scan over a record of shape
`"  (" ++ core ++ ")" ++ rest` with a neutral core closes exactly at the
`)`, at offset `core.length + 3`. -/
theorem scanClose_record (core rest : Str) (h : chunkOk core) :
    scanClose ("  (".toList ++ (core ++ ')' :: rest)) 0 = some (core.length + 3) := by
  obtain ⟨h1, h2⟩ := h
  have e0 : "  (".toList ++ (core ++ ')' :: rest) =
      ' ' :: ' ' :: '(' :: (core ++ ')' :: rest) := rfl
  rw [e0]
  rw [scanClose_cons_other ' ' _ _ (by decide) (by decide),
    scanClose_cons_other ' ' _ _ (by decide) (by decide),
    scanClose_cons_open,
    scanClose_through core (0 + 1) (')' :: rest) (by rw [h1]; omega),
    h2, scanClose_cons_close, if_pos (by omega)]
  simp
  try omega

/-- Dropping past the left part of a concatenation. -/
theorem drop_append_right (A B : Str) (j : Nat) :
    (A ++ B).drop (A.length + j) = B.drop j := by
  rw [List.drop_append_eq_append_drop]
  simp

/-- `countOccur` over a concatenation with no occurrence starting in the
left half (including straddling occurrences). -/
theorem countOccur_append_no_pre (pat : Str) :
    ∀ (A B : Str), (∀ i < A.length, ¬ pat <+: (A ++ B).drop i) →
      countOccur pat (A ++ B) = countOccur pat B := by
  intro A
  induction A with
  | nil => intro B _; rw [List.nil_append]
  | cons a A' ih =>
    intro B h
    rw [List.cons_append]
    rw [show countOccur pat (a :: (A' ++ B)) =
      (if pat.isPrefixOf (a :: (A' ++ B)) then 1 else 0) + countOccur pat (A' ++ B)
      from rfl]
    have h0 : ¬ pat.isPrefixOf (a :: (A' ++ B)) = true := by
      intro hc
      exact h 0 (by simp) (by simpa using List.isPrefixOf_iff_prefix.mp hc)
    rw [if_neg h0, ih B (fun i hi => by simpa using h (i + 1) (by simpa using hi))]
    omega

/-- Unfolding of `mpre` at a cons. -/
theorem mpre_cons (c : Char) (s : Str) : mpre (c :: s) = min 0 (pdelta c + mpre s) := rfl

/-- Cleanliness distributes over append. -/
theorem cleanStr_append (a b : Str) : cleanStr (a ++ b) = (cleanStr a && cleanStr b) := by
  simp [cleanStr, List.all_append]

/-- Cleanliness at a cons. -/
theorem cleanStr_cons (c : Char) (s : Str) :
    cleanStr (c :: s) = (cleanChar c && cleanStr s) := by
  simp [cleanStr]

/-- Decimal digit characters are clean. -/
theorem cleanChar_digit : ∀ k < 10, cleanChar (Char.ofNat (48 + k)) = true := by decide

/-- `natDigitsF` produces only digit characters. -/
theorem cleanStr_natDigitsF : ∀ (fuel n : Nat), cleanStr (natDigitsF fuel n) = true := by
  intro fuel
  induction fuel with
  | zero =>
    intro n
    simp [natDigitsF, cleanStr, cleanChar_digit (n % 10) (Nat.mod_lt n (by omega))]
  | succ fuel ih =>
    intro n
    unfold natDigitsF
    by_cases hn : n < 10
    · rw [if_pos hn]
      simp [cleanStr, cleanChar_digit n hn]
    · rw [if_neg hn]
      rw [cleanStr_append, ih (n / 10)]
      simp [cleanStr, cleanChar_digit (n % 10) (Nat.mod_lt n (by omega))]

/-- `natDigits` output is clean. -/
theorem cleanStr_natDigits (n : Nat) : cleanStr (natDigits n) = true :=
  cleanStr_natDigitsF n n

/-- `intRepr` output is clean. -/
theorem cleanStr_intRepr (i : Int) : cleanStr (intRepr i) = true := by
  unfold intRepr
  by_cases hi : i < 0
  · rw [if_pos hi, show ('-' :: natDigits i.natAbs : Str) = ['-'] ++ natDigits i.natAbs
      from rfl, cleanStr_append, cleanStr_natDigits]
    decide
  · rw [if_neg hi]
    exact cleanStr_natDigits i.natAbs

/-- `fmtFixed` output is clean (sign, digits, decimal point, zero padding). -/
theorem cleanStr_fmtFixed (nd : Nat) (q : ℚ) : cleanStr (fmtFixed nd q) = true := by
  have hrep : ∀ k, cleanStr (List.replicate k '0') = true := by
    intro k
    rw [cleanStr, List.all_eq_true]
    intro c hc
    rw [List.eq_of_mem_replicate hc]
    decide
  have hsign : cleanStr (if q < 0 then ['-'] else []) = true := by
    split <;> decide
  unfold fmtFixed
  simp [cleanStr_append, cleanStr_cons, cleanStr_natDigits, hrep, hsign,
    show cleanChar '.' = true from by decide]

/-- `_map_pin_type` outputs are clean keywords. -/
theorem cleanStr_map_pin_type (t : Str) : cleanStr (map_pin_type t) = true := by
  unfold map_pin_type
  split_ifs <;> decide

/-- Underscoring spaces preserves cleanliness. -/
theorem cleanStr_replaceChar_underscore {s : Str} (h : cleanStr s = true) :
    cleanStr (replaceChar ' ' '_' s) = true := by
  rw [cleanStr, List.all_eq_true]
  intro c hc
  rcases mem_replaceChar hc with rfl | ⟨hcs, _⟩
  · decide
  · rw [cleanStr, List.all_eq_true] at h
    exact h c hcs

/-- `joinNL` of a list with at least two elements. -/
theorem joinNL_cons_cons (l x : Str) (ls : List Str) :
    joinNL (l :: x :: ls) = l ++ '\n' :: joinNL (x :: ls) := rfl

/-- `joinNL` splits over append of non-empty line lists. -/
theorem joinNL_append (A B : List Str) (hA : A ≠ []) (hB : B ≠ []) :
    joinNL (A ++ B) = joinNL A ++ '\n' :: joinNL B := by
  induction A with
  | nil => exact absurd rfl hA
  | cons a A' ih =>
    cases A' with
    | nil =>
      cases B with
      | nil => exact absurd rfl hB
      | cons b B' => rw [List.singleton_append, joinNL_cons_cons]; rfl
    | cons a2 A'' =>
      have hrec := ih (by simp)
      calc joinNL ((a :: a2 :: A'') ++ B)
          = a ++ '\n' :: joinNL ((a2 :: A'') ++ B) := rfl
        _ = a ++ '\n' :: (joinNL (a2 :: A'') ++ '\n' :: joinNL B) := by rw [hrec]
        _ = joinNL (a :: a2 :: A'') ++ '\n' :: joinNL B := by
            rw [joinNL_cons_cons]
            simp

/-- Joining lines that are all neutral chunks yields a neutral chunk. -/
theorem chunkOk_joinNL_all : ∀ (ls : List Str), (∀ l ∈ ls, chunkOk l) →
    chunkOk (joinNL ls) := by
  intro ls
  induction ls with
  | nil => intro _; exact chunkOk_nil
  | cons l ls' ih =>
    intro h
    cases ls' with
    | nil => exact h l (by simp)
    | cons x ls'' =>
      rw [joinNL_cons_cons,
        show (('\n' :: joinNL (x :: ls'')) : Str) = ['\n'] ++ joinNL (x :: ls'')
          from rfl]
      exact chunkOk_append (h l (by simp))
        (chunkOk_append (by constructor <;> decide)
          (ih fun a ha => h a (by simp [ha])))

/-- Joining a flattened list of non-empty neutral blocks is neutral. -/
theorem chunkOk_joinNL_flatten : ∀ (bs : List (List Str)),
    (∀ b ∈ bs, b ≠ [] ∧ chunkOk (joinNL b)) → chunkOk (joinNL bs.flatten) := by
  intro bs
  induction bs with
  | nil => intro _; exact chunkOk_nil
  | cons b rest ih =>
    intro h
    rw [List.flatten_cons]
    by_cases hrf : rest.flatten = []
    · rw [hrf, List.append_nil]
      exact (h b (by simp)).2
    · rw [joinNL_append b rest.flatten (h b (by simp)).1 hrf,
        show (('\n' :: joinNL rest.flatten) : Str) = ['\n'] ++ joinNL rest.flatten
          from rfl]
      exact chunkOk_append (h b (by simp)).2
        (chunkOk_append (by constructor <;> decide)
          (ih fun a ha => h a (by simp [ha])))

/-- A clean string has minimum prefix balance zero. -/
theorem mpre_clean {s : Str} (h : cleanStr s = true) : mpre s = 0 := (chunkOk_clean h).1

/-- A clean string has parenthesis balance zero. -/
theorem balInt_clean {s : Str} (h : cleanStr s = true) : balInt s = 0 := (chunkOk_clean h).2

/-- Formatted fixed-point values have minimum prefix balance zero. -/
theorem mpre_fmtFixed (nd : Nat) (q : ℚ) : mpre (fmtFixed nd q) = 0 :=
  mpre_clean (cleanStr_fmtFixed nd q)

/-- Formatted fixed-point values have parenthesis balance zero. -/
theorem balInt_fmtFixed (nd : Nat) (q : ℚ) : balInt (fmtFixed nd q) = 0 :=
  balInt_clean (cleanStr_fmtFixed nd q)

/-- Integer reprs have minimum prefix balance zero. -/
theorem mpre_intRepr (i : Int) : mpre (intRepr i) = 0 := mpre_clean (cleanStr_intRepr i)

/-- Integer reprs have parenthesis balance zero. -/
theorem balInt_intRepr (i : Int) : balInt (intRepr i) = 0 := balInt_clean (cleanStr_intRepr i)

/-- Decimal digit strings have minimum prefix balance zero. -/
theorem mpre_natDigits (n : Nat) : mpre (natDigits n) = 0 := mpre_clean (cleanStr_natDigits n)

/-- Decimal digit strings have parenthesis balance zero. -/
theorem balInt_natDigits (n : Nat) : balInt (natDigits n) = 0 :=
  balInt_clean (cleanStr_natDigits n)

/-- Mapped pin type keywords have minimum prefix balance zero. -/
theorem mpre_map_pin_type (t : Str) : mpre (map_pin_type t) = 0 :=
  mpre_clean (cleanStr_map_pin_type t)

/-- Mapped pin type keywords have parenthesis balance zero. -/
theorem balInt_map_pin_type (t : Str) : balInt (map_pin_type t) = 0 :=
  balInt_clean (cleanStr_map_pin_type t)

/-- A defaulted optional string is clean when both the stored value and the
default are clean. -/
theorem cleanStr_getD {o : Option Str} {d : Str} (h : cleanStr (o.getD []) = true)
    (hd : cleanStr d = true) : cleanStr (o.getD d) = true := by
  cases o with
  | none => simpa using hd
  | some s => simpa using h


/-- `mpre` of the empty string. -/
theorem mpre_nil : mpre ([] : Str) = 0 := rfl

/-- `balInt` of the empty string. -/
theorem balInt_nil : balInt ([] : Str) = 0 := rfl

/-- Parenthesis weight of a newline. -/
theorem pd_nl : pdelta '\n' = 0 := by decide

/-- Parenthesis weight of a double quote. -/
theorem pd_quot : pdelta '"' = 0 := by decide

/-- Parenthesis weight of a space. -/
theorem pd_sp : pdelta ' ' = 0 := by decide

/-- Parenthesis weight of a closing parenthesis. -/
theorem pd_close : pdelta ')' = -1 := by decide

/-- `joinNL` of a singleton. -/
theorem joinNL_singleton (l : Str) : joinNL [l] = l := rfl

/-- `joinNL` of the empty list. -/
theorem joinNL_nil : joinNL ([] : List Str) = [] := rfl

/-! Parenthesis profiles of the literal fragments of the generated record. -/

theorem m_prop : mpre "    (property \"".toList = 0 := by decide
theorem b_prop : balInt "    (property \"".toList = 1 := by decide
theorem m_qq : mpre "\" \"".toList = 0 := by decide
theorem b_qq : balInt "\" \"".toList = 0 := by decide
theorem m_id : mpre "      (id ".toList = 0 := by decide
theorem b_id : balInt "      (id ".toList = 1 := by decide
theorem m_at0 : mpre "      (at 0 ".toList = 0 := by decide
theorem b_at0 : balInt "      (at 0 ".toList = 1 := by decide
theorem m_sp0cl : mpre " 0)".toList = -1 := by decide
theorem b_sp0cl : balInt " 0)".toList = -1 := by decide
theorem m_effh : mpre "      (effects (font (size 1.27 1.27)) hide)".toList = 0 := by decide
theorem b_effh : balInt "      (effects (font (size 1.27 1.27)) hide)".toList = 0 := by decide
theorem m_eff : mpre "      (effects (font (size 1.27 1.27)))".toList = 0 := by decide
theorem b_eff : balInt "      (effects (font (size 1.27 1.27)))".toList = 0 := by decide
theorem m_close4 : mpre "    )".toList = -1 := by decide
theorem b_close4 : balInt "    )".toList = -1 := by decide
theorem m_pin : mpre "      (pin ".toList = 0 := by decide
theorem b_pin : balInt "      (pin ".toList = 1 := by decide
theorem m_line : mpre " line".toList = 0 := by decide
theorem b_line : balInt " line".toList = 0 := by decide
theorem m_atSp : mpre "        (at ".toList = 0 := by decide
theorem b_atSp : balInt "        (at ".toList = 1 := by decide
theorem m_len : mpre "        (length 2.54)".toList = 0 := by decide
theorem b_len : balInt "        (length 2.54)".toList = 0 := by decide
theorem m_name : mpre "        (name \"".toList = 0 := by decide
theorem b_name : balInt "        (name \"".toList = 1 := by decide
theorem m_nameTail : mpre "\" (effects (font (size 1.27 1.27))))".toList = -1 := by decide
theorem b_nameTail : balInt "\" (effects (font (size 1.27 1.27))))".toList = -1 := by decide
theorem m_number : mpre "        (number \"".toList = 0 := by decide
theorem b_number : balInt "        (number \"".toList = 1 := by decide
theorem m_close6 : mpre "      )".toList = -1 := by decide
theorem b_close6 : balInt "      )".toList = -1 := by decide
theorem m_rect : mpre "      (rectangle".toList = 0 := by decide
theorem b_rect : balInt "      (rectangle".toList = 1 := by decide
theorem m_start : mpre "        (start ".toList = 0 := by decide
theorem b_start : balInt "        (start ".toList = 1 := by decide
theorem m_end : mpre "        (end ".toList = 0 := by decide
theorem b_end : balInt "        (end ".toList = 1 := by decide
theorem m_stroke :
    mpre "        (stroke (width 0.254) (type default) (color 0 0 0 0))".toList = 0 := by
  decide
theorem b_stroke :
    balInt "        (stroke (width 0.254) (type default) (color 0 0 0 0))".toList = 0 := by
  decide
theorem m_fillbg : mpre "        (fill (type background))".toList = 0 := by decide
theorem b_fillbg : balInt "        (fill (type background))".toList = 0 := by decide
theorem m_fillnone : mpre "        (fill (type none))".toList = 0 := by decide
theorem b_fillnone : balInt "        (fill (type none))".toList = 0 := by decide
theorem m_circle : mpre "      (circle".toList = 0 := by decide
theorem b_circle : balInt "      (circle".toList = 1 := by decide
theorem m_center : mpre "        (center ".toList = 0 := by decide
theorem b_center : balInt "        (center ".toList = 1 := by decide
theorem m_radius : mpre "        (radius ".toList = 0 := by decide
theorem b_radius : balInt "        (radius ".toList = 1 := by decide
theorem m_polyline : mpre "      (polyline".toList = 0 := by decide
theorem b_polyline : balInt "      (polyline".toList = 1 := by decide
theorem m_pts : mpre "        (pts".toList = 0 := by decide
theorem b_pts : balInt "        (pts".toList = 1 := by decide
theorem m_close8 : mpre "        )".toList = -1 := by decide
theorem b_close8 : balInt "        )".toList = -1 := by decide
theorem m_xy : mpre "          (xy ".toList = 0 := by decide
theorem b_xy : balInt "          (xy ".toList = 1 := by decide
theorem m_sym1 : mpre "symbol \"".toList = 0 := by decide
theorem b_sym1 : balInt "symbol \"".toList = 0 := by decide
theorem m_bom : mpre "\"\n    (in_bom yes)\n    (on_board yes)\n".toList = 0 := by decide
theorem b_bom : balInt "\"\n    (in_bom yes)\n    (on_board yes)\n".toList = 0 := by decide
theorem m_sym2 : mpre "\n    (symbol \"".toList = 0 := by decide
theorem b_sym2 : balInt "\n    (symbol \"".toList = 1 := by decide
theorem m_u01 : mpre "_0_1\"\n".toList = 0 := by decide
theorem b_u01 : balInt "_0_1\"\n".toList = 0 := by decide
theorem m_tail : mpre "\n    )\n  ".toList = -1 := by decide
theorem b_tail : balInt "\n    )\n  ".toList = -1 := by decide

/-- A property block joins to a neutral chunk when the interpolated key,
value and y-offset strings are clean. -/
theorem chunkOk_propBlock (key value : Str) (idn : Nat) (aty : Str) (hide : Bool)
    (hk : cleanStr key = true) (hv : cleanStr value = true)
    (ha : cleanStr aty = true) :
    chunkOk (joinNL (propBlock key value idn aty hide)) := by
  have he_m : mpre (if hide = true
      then "      (effects (font (size 1.27 1.27)) hide)".toList
      else "      (effects (font (size 1.27 1.27)))".toList) = 0 := by
    split
    · exact m_effh
    · exact m_eff
  have he_b : balInt (if hide = true
      then "      (effects (font (size 1.27 1.27)) hide)".toList
      else "      (effects (font (size 1.27 1.27)))".toList) = 0 := by
    split
    · exact b_effh
    · exact b_eff
  constructor <;>
  simp only [propBlock, joinNL_cons_cons, joinNL_singleton, mpre_append, balInt_append,
    mpre_cons, balInt_cons, mpre_nil, balInt_nil, pd_nl, pd_quot, pd_sp, pd_close,
    mpre_natDigits, balInt_natDigits,
    mpre_clean hk, balInt_clean hk, mpre_clean hv, balInt_clean hv,
    mpre_clean ha, balInt_clean ha,
    m_prop, b_prop, m_qq, b_qq, m_id, b_id, m_at0, b_at0, m_sp0cl, b_sp0cl,
    he_m, he_b, m_close4, b_close4] <;>
  omega

/-- A pin block joins to a neutral chunk when the pin's stored number and
name are clean. -/
theorem chunkOk_pinBlock (i : Nat) (pin : SEPin)
    (hnum : cleanStr (pin.number.getD []) = true)
    (hname : cleanStr (pin.name.getD []) = true) :
    chunkOk (joinNL (pinBlock i pin)) := by
  have hn : cleanStr (pin.number.getD (natDigits (i + 1))) = true :=
    cleanStr_getD hnum (cleanStr_natDigits (i + 1))
  have hm : cleanStr
      (pin.name.getD ("Pin_".toList ++ pin.number.getD (natDigits (i + 1)))) = true := by
    refine cleanStr_getD hname ?_
    rw [cleanStr_append, hn]
    decide
  constructor <;>
  simp only [pinBlock, joinNL_cons_cons, joinNL_singleton, mpre_append, balInt_append,
    mpre_cons, balInt_cons, mpre_nil, balInt_nil, pd_nl, pd_quot, pd_sp, pd_close,
    mpre_fmtFixed, balInt_fmtFixed, mpre_intRepr, balInt_intRepr,
    mpre_map_pin_type, balInt_map_pin_type,
    mpre_clean hn, balInt_clean hn, mpre_clean hm, balInt_clean hm,
    m_pin, b_pin, m_line, b_line, m_atSp, b_atSp, m_len, b_len, m_name, b_name,
    m_nameTail, b_nameTail, m_number, b_number, m_close6, b_close6] <;>
  omega

/-- A rectangle block joins to a neutral chunk. -/
theorem chunkOk_rectBlock (r : SERect) : chunkOk (joinNL (rectBlock r)) := by
  constructor <;>
  simp only [rectBlock, joinNL_cons_cons, joinNL_singleton, mpre_append, balInt_append,
    mpre_cons, balInt_cons, mpre_nil, balInt_nil, pd_nl, pd_quot, pd_sp, pd_close,
    mpre_fmtFixed, balInt_fmtFixed,
    m_rect, b_rect, m_start, b_start, m_end, b_end, m_stroke, b_stroke,
    m_fillbg, b_fillbg, m_close6, b_close6] <;>
  omega

/-- A circle block joins to a neutral chunk. -/
theorem chunkOk_circleBlock (c : SECircle) : chunkOk (joinNL (circleBlock c)) := by
  constructor <;>
  simp only [circleBlock, joinNL_cons_cons, joinNL_singleton, mpre_append, balInt_append,
    mpre_cons, balInt_cons, mpre_nil, balInt_nil, pd_nl, pd_quot, pd_sp, pd_close,
    mpre_fmtFixed, balInt_fmtFixed,
    m_circle, b_circle, m_center, b_center, m_radius, b_radius, m_stroke, b_stroke,
    m_fillnone, b_fillnone, m_close6, b_close6] <;>
  omega

/-- Joining a polyline body: two opening lines, neutral point lines, four
closing lines. -/
theorem chunkOk_polyJoin (M : List Str) (hM : M ≠ []) (hMok : chunkOk (joinNL M)) :
    chunkOk (joinNL ((["      (polyline".toList, "        (pts".toList] ++ M) ++
      ["        )".toList,
       "        (stroke (width 0.254) (type default) (color 0 0 0 0))".toList,
       "        (fill (type none))".toList, "      )".toList])) := by
  rw [joinNL_append (["      (polyline".toList, "        (pts".toList] ++ M)
    ["        )".toList,
     "        (stroke (width 0.254) (type default) (color 0 0 0 0))".toList,
     "        (fill (type none))".toList, "      )".toList] (by simp) (by simp),
    joinNL_append ["      (polyline".toList, "        (pts".toList] M (by simp) hM]
  constructor <;>
  simp only [joinNL_cons_cons, joinNL_singleton, mpre_append, balInt_append,
    mpre_cons, balInt_cons, mpre_nil, balInt_nil, pd_nl, pd_quot, pd_sp, pd_close,
    hMok.1, hMok.2, m_polyline, b_polyline, m_pts, b_pts, m_close8, b_close8,
    m_stroke, b_stroke, m_fillnone, b_fillnone, m_close6, b_close6] <;>
  omega

/-- A produced polyline block is non-empty and joins to a neutral chunk. -/
theorem chunkOk_polylineBlock {pl : SEPolyline} {b : List Str}
    (h : polylineBlock pl = some b) : b ≠ [] ∧ chunkOk (joinNL b) := by
  unfold polylineBlock at h
  by_cases hlen : pl.points.length < 2
  · rw [if_pos hlen] at h
    exact absurd h (by simp)
  · rw [if_neg hlen] at h
    injection h with hb
    subst hb
    refine ⟨by simp, ?_⟩
    have hmid : chunkOk (joinNL (pl.points.map (fun p =>
        "          (xy ".toList ++ fmtFixed 2 ((p.1 - 100) * (0.0254 : ℚ)) ++ [' '] ++
          fmtFixed 2 (-((p.2 - 100) * (0.0254 : ℚ))) ++ [')']))) := by
      refine chunkOk_joinNL_all _ (fun l hl => ?_)
      obtain ⟨p, _, rfl⟩ := List.mem_map.1 hl
      constructor <;>
      simp only [mpre_append, balInt_append, mpre_cons, balInt_cons, mpre_nil,
        balInt_nil, pd_sp, pd_close, mpre_fmtFixed, balInt_fmtFixed, m_xy, b_xy] <;>
      omega
    have hM : pl.points.map (fun p =>
        "          (xy ".toList ++ fmtFixed 2 ((p.1 - 100) * (0.0254 : ℚ)) ++ [' '] ++
          fmtFixed 2 (-((p.2 - 100) * (0.0254 : ℚ))) ++ [')']) ≠ [] := by
      intro hc
      have hlen0 : pl.points.length = 0 := by
        simpa using congrArg List.length hc
      exact hlen (by omega)
    exact chunkOk_polyJoin _ hM hmid
/-- The second component of an `enumFrom` entry is a member of the list. -/
theorem snd_mem_of_mem_enumFrom {α : Type} :
    ∀ (l : List α) (k i : Nat) (p : α), (i, p) ∈ l.enumFrom k → p ∈ l := by
  intro l
  induction l with
  | nil =>
    intro k i p h
    simp [List.enumFrom] at h
  | cons a t ih =>
    intro k i p h
    rw [show (a :: t).enumFrom k = (k, a) :: t.enumFrom (k + 1) from rfl] at h
    rcases List.mem_cons.1 h with h1 | h2
    · rw [Prod.mk.injEq] at h1
      exact h1.2 ▸ List.mem_cons_self a t
    · exact List.mem_cons_of_mem _ (ih (k + 1) i p h2)

/-- The second component of an `enum` entry is a member of the list. -/
theorem snd_mem_of_mem_enum {α : Type} {l : List α} {i : Nat} {p : α}
    (h : (i, p) ∈ l.enum) : p ∈ l :=
  snd_mem_of_mem_enumFrom l 0 i p h

/-- Splitting the conjunction of `cleanSymbolData`. -/
theorem cleanSymbolData_split {S : SymbolData} (h : cleanSymbolData S = true) :
    cleanStr S.component_name = true ∧ cleanStr S.lcsc_id = true ∧
    cleanStr (S.info.pre.getD []) = true ∧ cleanStr S.info.package = true ∧
    cleanStr S.info.datasheet = true ∧ cleanStr S.info.manufacturer = true ∧
    (∀ p ∈ S.pins, cleanStr (p.number.getD []) = true ∧
      cleanStr (p.name.getD []) = true) := by
  unfold cleanSymbolData at h
  simp only [Bool.and_eq_true, List.all_eq_true] at h
  obtain ⟨⟨⟨⟨⟨⟨h1, h2⟩, h3⟩, h4⟩, h5⟩, h6⟩, h7⟩ := h
  exact ⟨h1, h2, h3, h4, h5, h6, fun p hp => h7 p hp⟩

/-- Every block of `_generate_properties` is one of the six property blocks. -/
theorem mem_generate_properties_blocks {S : SymbolData} {b : List Str}
    (hb : b ∈ generate_properties_blocks S) :
    b = propBlock "Reference".toList (S.info.pre.getD "U".toList) 0 "5.08".toList false ∨
    b = propBlock "Value".toList S.component_name 1 "-5.08".toList false ∨
    b = propBlock "Footprint".toList S.info.package 2 "-7.62".toList true ∨
    b = propBlock "Datasheet".toList S.info.datasheet 3 "-10.16".toList true ∨
    b = propBlock "LCSC".toList S.lcsc_id 4 "-12.7".toList true ∨
    b = propBlock "Manufacturer".toList S.info.manufacturer 5 "-15.24".toList true := by
  unfold generate_properties_blocks at hb
  split_ifs at hb <;>
  simp only [List.mem_append, List.mem_cons, List.not_mem_nil, or_false,
    false_or] at hb <;>
  tauto

/-- The joined property text is a neutral chunk for clean symbol data. -/
theorem chunkOk_generate_properties (S : SymbolData) (h : cleanSymbolData S = true) :
    chunkOk (generate_properties S) := by
  obtain ⟨h1, h2, h3, h4, h5, h6, _⟩ := cleanSymbolData_split h
  have hU : cleanStr (S.info.pre.getD "U".toList) = true :=
    cleanStr_getD h3 (by decide)
  unfold generate_properties
  apply chunkOk_joinNL_flatten
  intro b hb
  rcases mem_generate_properties_blocks hb with rfl | rfl | rfl | rfl | rfl | rfl
  · exact ⟨by simp [propBlock], chunkOk_propBlock _ _ _ _ _ (by decide) hU (by decide)⟩
  · exact ⟨by simp [propBlock], chunkOk_propBlock _ _ _ _ _ (by decide) h1 (by decide)⟩
  · exact ⟨by simp [propBlock], chunkOk_propBlock _ _ _ _ _ (by decide) h4 (by decide)⟩
  · exact ⟨by simp [propBlock], chunkOk_propBlock _ _ _ _ _ (by decide) h5 (by decide)⟩
  · exact ⟨by simp [propBlock], chunkOk_propBlock _ _ _ _ _ (by decide) h2 (by decide)⟩
  · exact ⟨by simp [propBlock], chunkOk_propBlock _ _ _ _ _ (by decide) h6 (by decide)⟩

/-- The joined pin text is a neutral chunk for clean symbol data. -/
theorem chunkOk_generate_pins (S : SymbolData) (h : cleanSymbolData S = true) :
    chunkOk (generate_pins S) := by
  have h7 := (cleanSymbolData_split h).2.2.2.2.2.2
  unfold generate_pins
  apply chunkOk_joinNL_flatten
  intro b hb
  simp only [List.mem_map] at hb
  obtain ⟨ip, hip, rfl⟩ := hb
  obtain ⟨i, p⟩ := ip
  have hp : p ∈ S.pins := snd_mem_of_mem_enum hip
  exact ⟨by simp [pinBlock], chunkOk_pinBlock i p (h7 p hp).1 (h7 p hp).2⟩

/-- The joined graphics text is a neutral chunk. -/
theorem chunkOk_generate_graphics (S : SymbolData) :
    chunkOk (generate_graphics S) := by
  unfold generate_graphics
  apply chunkOk_joinNL_flatten
  intro b hb
  unfold generate_graphics_blocks at hb
  simp only [List.mem_append] at hb
  rcases hb with (hb | hb) | hb
  · obtain ⟨r, _, rfl⟩ := List.mem_map.1 hb
    exact ⟨by simp [rectBlock], chunkOk_rectBlock r⟩
  · obtain ⟨c, _, rfl⟩ := List.mem_map.1 hb
    exact ⟨by simp [circleBlock], chunkOk_circleBlock c⟩
  · obtain ⟨pl, _, hpl⟩ := List.mem_filterMap.1 hb
    exact chunkOk_polylineBlock hpl

/-- The interior of the generated record is a neutral chunk for clean
symbol data. -/
theorem chunkOk_coreOf (S : SymbolData) (h : cleanSymbolData S = true) :
    chunkOk (coreOf S) := by
  have h1 := (cleanSymbolData_split h).1
  have hid : cleanStr (symbolIdOf S) = true := by
    unfold symbolIdOf
    exact cleanStr_replaceChar_underscore h1
  have hprops := chunkOk_generate_properties S h
  have hgfx := chunkOk_generate_graphics S
  have hpins := chunkOk_generate_pins S h
  constructor <;>
  simp only [coreOf, mpre_append, balInt_append, mpre_cons, balInt_cons, mpre_nil,
    balInt_nil, pd_nl, mpre_clean hid, balInt_clean hid, hprops.1, hprops.2,
    hgfx.1, hgfx.2, hpins.1, hpins.2, m_sym1, b_sym1, m_bom, b_bom, m_sym2, b_sym2,
    m_u01, b_u01, m_tail, b_tail] <;>
  omega

/-- The generated record is the opening `"  ("`, the interior, and the
closing `")\n"`. -/
theorem generate_shape (S : SymbolData) :
    generate_kicad_symbol S = "  (".toList ++ (coreOf S ++ ")\n".toList) := by
  unfold generate_kicad_symbol coreOf
  rw [show "  (symbol \"".toList = "  (".toList ++ "symbol \"".toList from by decide,
    show "\n    )\n  )\n".toList = "\n    )\n  ".toList ++ ")\n".toList from by decide]
  simp [List.append_assoc]

/-- The start marker written by the generator is a prefix of the generated
record. -/
theorem startMarker_prefix (S : SymbolData) :
    ∃ T, generate_kicad_symbol S = startMarker (symbolIdOf S) ++ T := by
  refine ⟨"\n    (in_bom yes)\n    (on_board yes)\n".toList ++ (generate_properties S ++
    ("\n    (symbol \"".toList ++ (symbolIdOf S ++ ("_0_1\"\n".toList ++
    (generate_graphics S ++ (['\n'] ++ (generate_pins S ++
      "\n    )\n  )\n".toList))))))), ?_⟩
  unfold generate_kicad_symbol startMarker
  rw [show "\"\n    (in_bom yes)\n    (on_board yes)\n".toList =
    '"' :: "\n    (in_bom yes)\n    (on_board yes)\n".toList from by decide]
  simp [List.append_assoc]

/-- The start marker is the existence-check marker indented by two spaces. -/
theorem startMarker_eq (symbolId : Str) :
    startMarker symbolId = ' ' :: ' ' :: checkMarker symbolId := by
  unfold startMarker checkMarker
  rw [show "  (symbol \"".toList = ' ' :: ' ' :: "(symbol \"".toList from by decide]
  simp

/-- The generated record has the length of its interior plus five framing
characters. -/
theorem SYM_length (S : SymbolData) :
    (generate_kicad_symbol S).length = (coreOf S).length + 5 := by
  rw [generate_shape]
  simp [show ("  (".toList).length = 3 from by decide,
    show (")\n".toList).length = 2 from by decide]

/-- Dropping all but the last character of the generated record leaves its
final newline. -/
theorem SYM_drop (S : SymbolData) :
    (generate_kicad_symbol S).drop ((coreOf S).length + 4) = ['\n'] := by
  have l3 : ("  (".toList).length = 3 := by decide
  rw [generate_shape,
    show (coreOf S).length + 4 = ("  (".toList).length + ((coreOf S).length + 1) from by
      rw [l3]; omega,
    drop_append_right, List.drop_append_eq_append_drop,
    List.drop_eq_nil_of_le (by omega),
    show (coreOf S).length + 1 - (coreOf S).length = 1 from by omega]
  decide

/-- The balanced-parenthesis scan across the generated record (followed by
anything) closes at the record's closing parenthesis. -/
theorem scanClose_SYM (S : SymbolData) (h : cleanSymbolData S = true) (rest : Str) :
    scanClose (generate_kicad_symbol S ++ rest) 0 = some ((coreOf S).length + 3) := by
  rw [generate_shape,
    show ("  (".toList ++ (coreOf S ++ ")\n".toList)) ++ rest =
      "  (".toList ++ (coreOf S ++ ')' :: ('\n' :: rest)) from by
        rw [show ")\n".toList = [')', '\n'] from rfl]
        simp]
  exact scanClose_record (coreOf S) ('\n' :: rest) (chunkOk_coreOf S h)

/-- A newline never occurs in the start marker of a clean identifier. -/
theorem nl_not_mem_startMarker {symbolId : Str} (hid : cleanStr symbolId = true) :
    '\n' ∉ startMarker symbolId := by
  unfold startMarker
  intro hc
  rcases List.mem_append.1 hc with h1 | h2
  · rcases List.mem_append.1 h1 with h1a | h1b
    · exact absurd h1a (by decide)
    · rw [cleanStr, List.all_eq_true] at hid
      exact absurd (hid _ h1b) (by decide)
  · exact absurd h2 (by decide)

/-- The character of an occurrence: a prefix of a dropped suffix pins down
the characters of the host string. -/
theorem get_of_prefix_drop {pat s : Str} {i j : Nat} (h : pat <+: s.drop i)
    (hj : j < pat.length) : s[i + j]? = pat[j]? := by
  obtain ⟨t, ht⟩ := h
  rw [← List.getElem?_drop, ← ht, List.getElem?_append_left hj]

/-- A prefix of a concatenation no longer than the left part is a prefix
of the left part. -/
theorem prefix_of_short {pat C D : Str} (h : pat <+: C ++ D)
    (hl : pat.length ≤ C.length) : pat <+: C := by
  have h1 : pat = (C ++ D).take pat.length := List.prefix_iff_eq_take.mp h
  rw [List.take_append_eq_append_take,
    show pat.length - C.length = 0 from Nat.sub_eq_zero_of_le hl,
    List.take_zero, List.append_nil] at h1
  exact h1 ▸ List.take_prefix pat.length C

/-- A successful indexed lookup yields a member of the list. -/
theorem mem_of_getElem_opt {α : Type} :
    ∀ (l : List α) (n : Nat) (a : α), l[n]? = some a → a ∈ l := by
  intro l
  induction l with
  | nil =>
    intro n a h
    simp at h
  | cons x t ih =>
    intro n a h
    cases n with
    | zero =>
      rw [List.getElem?_cons_zero, Option.some.injEq] at h
      simp [h]
    | succ n =>
      rw [List.getElem?_cons_succ] at h
      exact List.mem_cons_of_mem _ (ih n a h)

/-- Inserting a newline right after the clean left part creates no new
occurrence of a newline-free pattern before or at the newline. -/
theorem noOcc_snoc_nl (pat A X : Str) (hnl : '\n' ∉ pat) (hne : pat ≠ [])
    (h2 : ∀ i < A.length, ¬ pat <+: (A ++ X).drop i) :
    ∀ i < A.length + 1, ¬ pat <+: ((A ++ ['\n']) ++ X).drop i := by
  intro i hi hc
  by_cases hcase : i + pat.length ≤ A.length
  · have hp : 0 < pat.length := List.length_pos.mpr hne
    have hiA : i < A.length := by omega
    apply h2 i hiA
    have hdropf2 : ((A ++ ['\n']) ++ X).drop i = A.drop i ++ ('\n' :: X) := by
      rw [List.append_assoc, List.singleton_append,
        List.drop_append_eq_append_drop,
        Nat.sub_eq_zero_of_le (le_of_lt hiA), List.drop_zero]
    rw [hdropf2] at hc
    have hshort : pat.length ≤ (A.drop i).length := by
      rw [List.length_drop]
      omega
    have hin : pat <+: A.drop i := prefix_of_short hc hshort
    have hdropf1 : (A ++ X).drop i = A.drop i ++ X := by
      rw [List.drop_append_eq_append_drop, Nat.sub_eq_zero_of_le (le_of_lt hiA),
        List.drop_zero]
    rw [hdropf1]
    exact hin.trans (List.prefix_append _ _)
  · apply hnl
    have hj : A.length - i < pat.length := by omega
    have hgot := get_of_prefix_drop hc hj
    have hidx : i + (A.length - i) = A.length := by omega
    have hch : ((A ++ ['\n']) ++ X)[A.length]? = some '\n' := by
      rw [List.append_assoc, List.singleton_append,
        List.getElem?_append_right (le_refl A.length)]
      simp
    rw [hidx, hch] at hgot
    exact mem_of_getElem_opt _ _ _ hgot.symm

/-- Removing the freshly inserted record: the balanced scan stops one
character short of the record's final newline, leaving it behind. -/
theorem remove_after_insert (S : SymbolData) (A : Str)
    (hclean : cleanSymbolData S = true)
    (h2 : ∀ i < A.length, ¬ startMarker (symbolIdOf S) <+:
      (A ++ (generate_kicad_symbol S ++ ")\n".toList)).drop i) :
    remove_existing_symbol (A ++ (generate_kicad_symbol S ++ ")\n".toList))
      (symbolIdOf S) = (A ++ ['\n']) ++ ")\n".toList := by
  obtain ⟨T, hT⟩ := startMarker_prefix S
  have hdropA : (A ++ (generate_kicad_symbol S ++ ")\n".toList)).drop A.length =
      generate_kicad_symbol S ++ ")\n".toList := List.drop_left A _
  have hocc : startMarker (symbolIdOf S) <+:
      (A ++ (generate_kicad_symbol S ++ ")\n".toList)).drop A.length := by
    rw [hdropA, hT]
    exact ⟨T ++ ")\n".toList, by simp⟩
  have hfind : strFind (startMarker (symbolIdOf S))
      (A ++ (generate_kicad_symbol S ++ ")\n".toList)) = some A.length :=
    strFind_eq_some _ _ _ hocc h2
  have hscan : scanClose
      ((A ++ (generate_kicad_symbol S ++ ")\n".toList)).drop A.length) 0 =
      some ((coreOf S).length + 3) := by
    rw [hdropA]
    exact scanClose_SYM S hclean _
  have hd : (generate_kicad_symbol S ++ ")\n".toList).drop ((coreOf S).length + 4) =
      '\n' :: ")\n".toList := by
    rw [List.drop_append_eq_append_drop, SYM_drop,
      show (coreOf S).length + 4 - (generate_kicad_symbol S).length = 0 from by
        rw [SYM_length]; omega,
      List.drop_zero]
    rfl
  unfold remove_existing_symbol
  simp only [hfind, hscan]
  rw [List.take_left,
    show A.length + ((coreOf S).length + 3) + 1 =
      A.length + ((coreOf S).length + 4) from by omega,
    drop_append_right, hd]
  simp

/-- Exporting into a library that does not yet contain the identifier
splices the record in front of the final closing parenthesis. -/
theorem symbol_export_insert (S : SymbolData) (A : Str) (ov : Bool)
    (h1 : containsStr (A ++ ")\n".toList) (checkMarker (symbolIdOf S)) = false) :
    symbol_export S (some (A ++ ")\n".toList)) ov =
      (some (A ++ (generate_kicad_symbol S ++ ")\n".toList)), true) := by
  have hrf : rfindChar ')' (A ++ ")\n".toList) = some A.length := by
    rw [show ")\n".toList = ')' :: ['\n'] from rfl]
    exact rfindChar_append_last A ['\n'] ')' (by decide)
  unfold symbol_export
  simp only [h1, Bool.false_eq_true, if_false, hrf, List.take_left, List.drop_left]
  simp [List.append_assoc]

/-- Exporting with overwrite into a library that already holds the record
removes it (leaving its final newline) and re-inserts it, lengthening the
file by one newline. -/
theorem symbol_export_overwrite_dup (S : SymbolData) (A : Str)
    (hclean : cleanSymbolData S = true)
    (h2 : ∀ i < A.length, ¬ startMarker (symbolIdOf S) <+:
      (A ++ (generate_kicad_symbol S ++ ")\n".toList)).drop i) :
    symbol_export S (some (A ++ (generate_kicad_symbol S ++ ")\n".toList))) true =
      (some ((A ++ ['\n']) ++ (generate_kicad_symbol S ++ ")\n".toList)), true) := by
  obtain ⟨T, hT⟩ := startMarker_prefix S
  have hdrop2 : (A ++ (generate_kicad_symbol S ++ ")\n".toList)).drop (A.length + 2) =
      checkMarker (symbolIdOf S) ++ (T ++ ")\n".toList) := by
    rw [drop_append_right A _ 2, hT, startMarker_eq]
    simp
  have hocc : containsStr (A ++ (generate_kicad_symbol S ++ ")\n".toList))
      (checkMarker (symbolIdOf S)) = true :=
    contains_of_occ _ _ (A.length + 2) (by rw [hdrop2]; exact ⟨_, rfl⟩)
  have hrem := remove_after_insert S A hclean h2
  have hrf : rfindChar ')' ((A ++ ['\n']) ++ ")\n".toList) = some (A.length + 1) := by
    rw [show ")\n".toList = ')' :: ['\n'] from rfl,
      rfindChar_append_last (A ++ ['\n']) ['\n'] ')' (by decide)]
    simp
  unfold symbol_export
  simp only [hocc, eq_self_iff_true, if_true, hrem, hrf]
  rw [show A.length + 1 = (A ++ ['\n']).length from by simp,
    List.take_left, List.drop_left]
  simp [List.append_assoc]

/-- Exporting with overwrite disabled into a library that already holds the
identifier reports success without changing the content. -/
theorem symbol_export_skip (S : SymbolData) (f : Str)
    (hocc : containsStr f (checkMarker (symbolIdOf S)) = true) :
    symbol_export S (some f) false = (some f, true) := by
  unfold symbol_export
  simp only [hocc, eq_self_iff_true, if_true, Bool.false_eq_true, if_false]

/-- A `some` result of `strFindAux` admits no occurrence before it. -/
theorem strFindAux_first (pat : Str) :
    ∀ (s : Str) (k m : Nat), strFindAux pat s k = some m →
      ∀ i, k + i < m → ¬ pat <+: s.drop i := by
  intro s
  induction s with
  | nil =>
    intro k m h i hi
    unfold strFindAux at h
    by_cases hp : pat.isPrefixOf ([] : Str)
    · rw [if_pos hp, Option.some.injEq] at h
      omega
    · rw [if_neg hp] at h
      exact absurd h (by simp)
  | cons c t ih =>
    intro k m h i hi
    unfold strFindAux at h
    by_cases hp : pat.isPrefixOf (c :: t)
    · rw [if_pos hp, Option.some.injEq] at h
      omega
    · rw [if_neg hp] at h
      cases i with
      | zero =>
        rw [List.drop_zero]
        intro hc
        exact hp (List.isPrefixOf_iff_prefix.mpr hc)
      | succ j => exact ih (k + 1) m h j (by omega)

/-- The index returned by `strFind` is the first occurrence. -/
theorem strFind_first (pat s : Str) (n : Nat) (h : strFind pat s = some n) :
    ∀ i < n, ¬ pat <+: s.drop i := by
  intro i hi
  exact strFindAux_first pat s 0 n (by simpa [strFind] using h) i (by omega)

/-- Claim C1 counterexample: with the sample symbol and a fresh library
file, the file content after the second overwrite-enabled export differs
from the content after the first — the exports are not idempotent, because
each overwrite leaves the removed record's final newline behind and so
accumulates one extra newline at the splice point. -/
theorem C1_export_counterexample :
    (symbol_export symbolSample
        ((symbol_export symbolSample (some freshEnvelope) true).1) true).1 ≠
      (symbol_export symbolSample (some freshEnvelope) true).1 := by
  with_unfolding_all decide

/-- Claim C1 (amended): for clean symbol data `S` and a library file
`A ++ ")\n"` whose head `A` does not contain the identifier's check marker
(`h1`), with no start-marker occurrence starting before the insertion
point of the once-exported file (`h2`) and exactly one start-marker
occurrence inside the generated record plus closer (`h3`): the first
export splices the record right before the final closer and succeeds; a
second export with overwrite enabled removes and re-inserts the record,
producing the same file except for one extra newline at the splice point
(so it is NOT byte-for-byte equal to the first result, refuting the
idempotence half of the claim); after each of the two exports the start
marker occurs exactly once (the exactly-one-record half holds); and a
second export with overwrite disabled returns success and leaves the
content unchanged (the skip half holds). -/
theorem C1_export_amended (S : SymbolData) (A : Str)
    (hclean : cleanSymbolData S = true)
    (h1 : containsStr (A ++ ")\n".toList) (checkMarker (symbolIdOf S)) = false)
    (h2 : ∀ i < A.length, ¬ startMarker (symbolIdOf S) <+:
      (A ++ (generate_kicad_symbol S ++ ")\n".toList)).drop i)
    (h3 : countOccur (startMarker (symbolIdOf S))
      (generate_kicad_symbol S ++ ")\n".toList) = 1) :
    symbol_export S (some (A ++ ")\n".toList)) true =
      (some (A ++ (generate_kicad_symbol S ++ ")\n".toList)), true) ∧
    symbol_export S (some (A ++ (generate_kicad_symbol S ++ ")\n".toList))) true =
      (some ((A ++ ['\n']) ++ (generate_kicad_symbol S ++ ")\n".toList)), true) ∧
    countOccur (startMarker (symbolIdOf S))
      (A ++ (generate_kicad_symbol S ++ ")\n".toList)) = 1 ∧
    countOccur (startMarker (symbolIdOf S))
      ((A ++ ['\n']) ++ (generate_kicad_symbol S ++ ")\n".toList)) = 1 ∧
    symbol_export S (some (A ++ (generate_kicad_symbol S ++ ")\n".toList))) false =
      (some (A ++ (generate_kicad_symbol S ++ ")\n".toList)), true) := by
  have hid : cleanStr (symbolIdOf S) = true := by
    unfold symbolIdOf
    exact cleanStr_replaceChar_underscore (cleanSymbolData_split hclean).1
  have hne : startMarker (symbolIdOf S) ≠ [] := by
    unfold startMarker
    simp
  have h2' : ∀ i < (A ++ ['\n']).length, ¬ startMarker (symbolIdOf S) <+:
      ((A ++ ['\n']) ++ (generate_kicad_symbol S ++ ")\n".toList)).drop i := by
    intro i hi
    exact noOcc_snoc_nl _ A _ (nl_not_mem_startMarker hid) hne h2 i (by simpa using hi)
  obtain ⟨T, hT⟩ := startMarker_prefix S
  have hdrop2 : (A ++ (generate_kicad_symbol S ++ ")\n".toList)).drop (A.length + 2) =
      checkMarker (symbolIdOf S) ++ (T ++ ")\n".toList) := by
    rw [drop_append_right A _ 2, hT, startMarker_eq]
    simp
  have hocc : containsStr (A ++ (generate_kicad_symbol S ++ ")\n".toList))
      (checkMarker (symbolIdOf S)) = true :=
    contains_of_occ _ _ (A.length + 2) (by rw [hdrop2]; exact ⟨_, rfl⟩)
  exact ⟨symbol_export_insert S A true h1,
    symbol_export_overwrite_dup S A hclean h2,
    (countOccur_append_no_pre _ A _ h2).trans h3,
    (countOccur_append_no_pre _ (A ++ ['\n']) _ h2').trans h3,
    symbol_export_skip S _ hocc⟩

/-- Concrete instantiation of the amended C1 theorem at the sample symbol
and the fresh-envelope head, with every hypothesis discharged by
evaluation. -/
theorem C1_export_amended_witness :
    cleanSymbolData symbolSample = true ∧
    symbol_export symbolSample (some (headEnvelope ++ ")\n".toList)) true =
      (some (headEnvelope ++ (generate_kicad_symbol symbolSample ++ ")\n".toList)),
        true) ∧
    symbol_export symbolSample
        (some (headEnvelope ++ (generate_kicad_symbol symbolSample ++ ")\n".toList)))
        true =
      (some ((headEnvelope ++ ['\n']) ++
        (generate_kicad_symbol symbolSample ++ ")\n".toList)), true) ∧
    countOccur (startMarker (symbolIdOf symbolSample))
      (headEnvelope ++ (generate_kicad_symbol symbolSample ++ ")\n".toList)) = 1 ∧
    countOccur (startMarker (symbolIdOf symbolSample))
      ((headEnvelope ++ ['\n']) ++
        (generate_kicad_symbol symbolSample ++ ")\n".toList)) = 1 ∧
    symbol_export symbolSample
        (some (headEnvelope ++ (generate_kicad_symbol symbolSample ++ ")\n".toList)))
        false =
      (some (headEnvelope ++ (generate_kicad_symbol symbolSample ++ ")\n".toList)),
        true) := by
  have h := C1_export_amended symbolSample headEnvelope
    (by with_unfolding_all decide)
    (by with_unfolding_all decide)
    (fun i hi => strFind_first _ _ _ (by with_unfolding_all decide) i hi)
    (by with_unfolding_all decide)
  exact ⟨by with_unfolding_all decide, h.1, h.2.1, h.2.2.1, h.2.2.2.1, h.2.2.2.2⟩

end LCSC
